import Mathlib

/-! # GraphView: the graph element builder, the style resolver and the hover handlers

A shallow embedding of `src/frontend/src/components/GraphView.jsx`.

* JavaScript values that occur as fields of the payload are `JSVal`: `undefined` (the field is
  missing), `null`, or a string. The payload itself is `Payload`.
* `buildElements` is the function of that name, lines 201-210.
* Property lookup on the table of edge colours, `EDGE_COLORS[rel]`, finds the table's own keys
  and the members that an object literal inherits from `Object.prototype` (`constructor`,
  `toString`, ...). Property lookup on the table of node colours, `NODE_COLORS[label]`, is lookup
  among the table's own keys: labels that name an inherited member are outside the vocabulary of
  labels modelled here.
* The callback `handleCyReady` is the list of its calls on the surface, `handleCyReadySteps`, run
  in order; a view is the surface together with the React state `hoveredNode` and the calls made
  to the host. The handlers are functions on views; `View.ready` is the view after the first run
  of `handleCyReady`, and `Mounted` follows the mounted component from render to render, where
  `handleCyReady` runs again.
* The function component is `render`, in explicit state passing: the state `hoveredNode` goes in
  and comes out. The layout algorithm belongs to the rendering library and is a parameter; the
  tooltip in the document, which outlives the render while its exit animation plays, is
  `Presence`.
-/

namespace GraphView

/-! ## Values and the payload -/

/-- A field of a payload record: missing (`undefined`), `null`, or a string. -/
inductive JSVal where
  | undefined
  | null
  | str (s : String)
  deriving DecidableEq, Repr

/-- JavaScript truthiness on `JSVal`: `undefined`, `null` and the empty string are falsy. -/
def JSVal.truthy : JSVal → Bool
  | .undefined => false
  | .null => false
  | .str s => !(s == "")

/-- The JavaScript operator `a || b`: `a` when `a` is truthy, `b` otherwise. -/
def JSVal.or (a b : JSVal) : JSVal :=
  if a.truthy then a else b

/-- An input node `{id, name, label}`. -/
structure RawNode where
  id : JSVal
  name : JSVal
  label : JSVal
  deriving DecidableEq, Repr

/-- An input edge `{source, target, relationship}`. -/
structure RawEdge where
  source : JSVal
  target : JSVal
  relationship : JSVal
  deriving DecidableEq, Repr

/-- A payload object: `nodes` and `edges` are each a list, or missing (`none`), which
`graphData.nodes || []` turns into the empty list. -/
structure GraphData where
  nodes : Option (List RawNode)
  edges : Option (List RawEdge)
  deriving DecidableEq, Repr

/-- The argument of `buildElements`: `undefined`, `null`, or a payload object. -/
inductive Payload where
  | undefined
  | null
  | object (g : GraphData)
  deriving DecidableEq, Repr

/-! ## Render records -/

/-- The `data` of a render node: `{ id, name, label }`. -/
structure NodeData where
  id : JSVal
  name : JSVal
  label : JSVal
  deriving DecidableEq, Repr

/-- The `data` of a render edge: `{ id, source, target, relationship }`. The id is always the
string built by the template literal. -/
structure EdgeData where
  id : String
  source : JSVal
  target : JSVal
  relationship : JSVal
  deriving DecidableEq, Repr

/-- A render record `{ data: ... }`, of a node or of an edge. -/
inductive Element where
  | node (data : NodeData)
  | edge (data : EdgeData)
  deriving DecidableEq, Repr

/-- The callback of line 203: `(n) => ({ data: { id: n.id || n.name, name: n.name,
label: n.label } })`. -/
def nodeRecord (n : RawNode) : Element :=
  .node { id := n.id.or n.name, name := n.name, label := n.label }

/-- The template literal of line 207: the letter e followed by the decimal form of the index. -/
def edgeId (i : Nat) : String :=
  "e" ++ Nat.repr i

/-- The callback of line 206: `(e, i) => ({ data: { id: ..., source: e.source,
target: e.target, relationship: e.relationship } })`. -/
def edgeRecord (i : Nat) (e : RawEdge) : Element :=
  .edge { id := edgeId i, source := e.source, target := e.target,
          relationship := e.relationship }

/-- The function `buildElements` of lines 201-210. The test `!graphData` of line 202 holds for
`undefined` and `null` and fails for every object. -/
def buildElements (graphData : Payload) : List Element :=
  match graphData with
  | .undefined => []
  | .null => []
  | .object g =>
    let nodes := (g.nodes.getD []).map nodeRecord
    let edges := (g.edges.getD []).mapIdx edgeRecord
    nodes ++ edges

/-- The node data of a render record, `none` for an edge record. -/
def Element.nodeData? : Element → Option NodeData
  | .node d => some d
  | .edge _ => none

/-- The edge data of a render record, `none` for a node record. -/
def Element.edgeData? : Element → Option EdgeData
  | .node _ => none
  | .edge d => some d

/-- The render edges of a build, in output order. -/
def renderEdges (elements : List Element) : List EdgeData :=
  elements.filterMap Element.edgeData?

/-- The render nodes of a build, in output order. -/
def renderNodes (elements : List Element) : List NodeData :=
  elements.filterMap Element.nodeData?

/-- The value of a decimal digit character. -/
def digitValue (c : Char) : Nat :=
  c.toNat - 48

/-- The number that a list of decimal digits denotes, most significant digit first, continuing
from `acc`. -/
def readDigits (acc : Nat) (cs : List Char) : Nat :=
  cs.foldl (fun a c => a * 10 + digitValue c) acc

/-! ## Styles -/

/-- A colour literal. `hex` carries the literal with its leading `#`; `rgba r g b a` stands for
the literal `rgba(r, g, b, a)` (white space inside the brackets does not change the colour). -/
inductive Color where
  | hex (s : String)
  | rgba (r g b : Nat) (a : ℚ)
  deriving DecidableEq, Repr

/-- A value of a style property: a number, a colour, any other string, or, where the program
passes what it read from a table without looking at it, a member that the table inherits from
`Object.prototype`, given by its name. -/
inductive StyleValue where
  | num (q : ℚ)
  | color (c : Color)
  | str (s : String)
  | inherited (key : String)
  deriving DecidableEq, Repr

/-- A style object: property names with their values, in the order written. -/
abbrev Style := List (String × StyleValue)

/-- A colour set `{ main, border, highlight }`. -/
structure Palette where
  main : Color
  border : Color
  highlight : Color
  deriving DecidableEq, Repr

/-- The entry `NODE_COLORS.Company` of line 6. -/
def NODE_COLORS_Company : Palette :=
  ⟨.hex "#3b82f6", .hex "#60a5fa", .hex "#93c5fd"⟩

/-- The table `NODE_COLORS` of lines 5-11, in the order of its keys. -/
def NODE_COLORS : List (String × Palette) :=
  [ ("Company",    NODE_COLORS_Company),
    ("Product",    ⟨.hex "#a855f7", .hex "#c084fc", .hex "#d8b4fe"⟩),
    ("Partner",    ⟨.hex "#10b981", .hex "#34d399", .hex "#6ee7b7"⟩),
    ("Region",     ⟨.hex "#f59e0b", .hex "#fbbf24", .hex "#fde68a"⟩),
    ("Investment", ⟨.hex "#ef4444", .hex "#f87171", .hex "#fca5a5"⟩) ]

/-- The constant `INFOSYS_COLOR` of line 13. -/
def INFOSYS_COLOR : Palette :=
  ⟨.hex "#0066cc", .hex "#3399ff", .hex "#66b2ff"⟩

/-- The table `EDGE_COLORS` of lines 84-91. -/
def EDGE_COLORS : List (String × Color) :=
  [ ("COMPETES_WITH", .hex "#ef4444"),
    ("PARTNERS_WITH", .hex "#10b981"),
    ("INVESTS_IN",    .hex "#f59e0b"),
    ("OFFERS",        .hex "#a855f7"),
    ("USES",          .hex "#3b82f6"),
    ("OPERATES_IN",   .hex "#64748b") ]

/-- The property key a value is converted to when it indexes an object. -/
def JSVal.key : JSVal → String
  | .undefined => "undefined"
  | .null => "null"
  | .str s => s

/-- The expression `NODE_COLORS[label]`: the entry of an own key, or `none` for `undefined`.
Labels that name a member inherited from `Object.prototype` are not modelled here. -/
def nodeColorsAt (label : JSVal) : Option Palette :=
  NODE_COLORS.lookup label.key

/-- The names of the members that every object literal inherits from `Object.prototype`. Each
of them is a function or an object, so it is truthy. -/
def objectPrototypeKeys : List String :=
  [ "constructor", "hasOwnProperty", "isPrototypeOf", "propertyIsEnumerable", "toLocaleString",
    "toString", "valueOf", "__defineGetter__", "__defineSetter__", "__lookupGetter__",
    "__lookupSetter__", "__proto__" ]

/-- The expression `EDGE_COLORS[rel]`: the colour of an own key, else the member inherited from
`Object.prototype` when the key names one, else `none` for `undefined`. Every entry is a
non-empty string and every inherited member is a function or an object, so the value is truthy
exactly when there is one. -/
def edgeColorsAt (rel : JSVal) : Option StyleValue :=
  match EDGE_COLORS.lookup rel.key with
  | some c => some (.color c)
  | none => if rel.key ∈ objectPrototypeKeys then some (.inherited rel.key) else none

/-! ## The stylesheet -/

/-- The selectors that occur in `cytoscapeStylesheet`. -/
inductive Selector where
  /-- The selector `node`. -/
  | node
  /-- The selector `node[field="value"]`, for the data fields `label` and `name`. -/
  | nodeData (field : String) (value : String)
  /-- The selector `edge`. -/
  | edge
  /-- The selector `edge:hover, node:hover`. -/
  | anyHover
  /-- The selector `node:active`. -/
  | nodeActive
  deriving DecidableEq, Repr

/-- One entry `{ selector, style }` of a stylesheet. -/
structure Rule where
  selector : Selector
  style : Style
  deriving DecidableEq, Repr

/-- The pointer states of an element that the pseudo-classes `:hover` and `:active` test. -/
structure Pseudo where
  hover : Bool
  active : Bool
  deriving DecidableEq, Repr

/-- The data field of a node that a selector `node[field="..."]` reads. -/
def NodeData.field (d : NodeData) (f : String) : JSVal :=
  if f = "id" then d.id
  else if f = "name" then d.name
  else if f = "label" then d.label
  else .undefined

/-- Whether a selector matches an element in a pointer state. -/
def Selector.matches (sel : Selector) (el : Element) (ps : Pseudo) : Bool :=
  match sel, el with
  | .node, .node _ => true
  | .nodeData f v, .node d => d.field f == .str v
  | .edge, .edge _ => true
  | .anyHover, _ => ps.hover
  | .nodeActive, .node _ => ps.active
  | _, _ => false

/-- The constant `cytoscapeStylesheet` of lines 15-82. -/
def cytoscapeStylesheet : List Rule :=
  [ { selector := .node,
      style :=
        [ ("label", .str "data(name)"),
          ("text-valign", .str "bottom"),
          ("text-halign", .str "center"),
          ("font-size", .str "11px"),
          ("color", .color (.hex "#cbd5e1")),
          ("text-margin-y", .num 8),
          ("text-outline-width", .num 2),
          ("text-outline-color", .color (.hex "#0a0a14")),
          ("width", .num 45),
          ("height", .num 45),
          ("background-opacity", .num 0.9),
          ("border-width", .num 2),
          ("transition-property", .str "background-color, border-color, width, height"),
          ("transition-duration", .str "0.3s") ] } ]
  ++ NODE_COLORS.map (fun (label, colors) =>
      { selector := .nodeData "label" label,
        style :=
          [ ("background-color", .color colors.main),
            ("border-color", .color colors.border) ] })
  ++
  [ { selector := .nodeData "name" "Infosys",
      style :=
        [ ("background-color", .color INFOSYS_COLOR.main),
          ("border-color", .color INFOSYS_COLOR.border),
          ("width", .num 65),
          ("height", .num 65),
          ("font-size", .str "13px"),
          ("font-weight", .str "bold"),
          ("border-width", .num 3) ] },
    { selector := .edge,
      style :=
        [ ("width", .num 1.5),
          ("line-color", .color (.rgba 124 58 237 0.3)),
          ("target-arrow-color", .color (.rgba 124 58 237 0.5)),
          ("target-arrow-shape", .str "triangle"),
          ("curve-style", .str "bezier"),
          ("label", .str "data(relationship)"),
          ("font-size", .str "8px"),
          ("color", .color (.hex "#64748b")),
          ("text-rotation", .str "autorotate"),
          ("text-outline-width", .num 1.5),
          ("text-outline-color", .color (.hex "#0a0a14")),
          ("transition-property", .str "line-color, width"),
          ("transition-duration", .str "0.3s") ] },
    { selector := .anyHover, style := [] },
    { selector := .nodeActive, style := [ ("overlay-opacity", .num 0) ] } ]

/-- The value a stylesheet gives a property of an element: the rules are read in order and a
later matching rule that sets the property overrides an earlier one; `none` when no matching rule
sets it (the rendering library then uses its own default). -/
def sheetValue (sheet : List Rule) (el : Element) (ps : Pseudo) (prop : String) :
    Option StyleValue :=
  sheet.foldl
    (fun acc r =>
      if r.selector.matches el ps then
        match r.style.lookup prop with
        | some v => some v
        | none => acc
      else acc)
    none

/-- The call `ele.style(obj)`: every property of `obj` is written into the element's own
(bypass) style, replacing a value written earlier for the same property. -/
def Style.write (obj : Style) (bypass : Style) : Style :=
  obj ++ bypass.filter (fun p => !(obj.any (fun q => q.1 == p.1)))

/-- The style an element shows for a property: the value written on the element itself when there
is one, the stylesheet's otherwise. -/
def styleOf (el : Element) (bypass : Style) (ps : Pseudo) (prop : String) : Option StyleValue :=
  match bypass.lookup prop with
  | some v => some v
  | none => sheetValue cytoscapeStylesheet el ps prop

/-! ## The rendering surface -/

/-- A node of the rendering surface: its data, the style written on the node itself, its position
and whether the pointer can grab it. -/
structure CyNode where
  data : NodeData
  bypass : Style
  position : ℚ × ℚ
  grabbable : Bool
  deriving DecidableEq, Repr

/-- An edge of the rendering surface: its data and the style written on the edge itself. -/
structure CyEdge where
  data : EdgeData
  bypass : Style
  deriving DecidableEq, Repr

/-- The options object of a layout, as written in lines 136-146. The two function-valued
options, `nodeRepulsion` and `idealEdgeLength`, are constant functions and are recorded by their
value. -/
structure LayoutOptions where
  name : String
  animate : Bool
  randomize : Bool
  fit : Bool
  padding : ℚ
  nodeRepulsion : ℚ
  idealEdgeLength : ℚ
  gravity : ℚ
  numIter : Nat
  deriving DecidableEq, Repr

/-- The rendering surface `cy`: its nodes and edges, the autolock switch, and the layouts that
have been run on it so far (oldest first). -/
structure Cy where
  nodes : List CyNode
  edges : List CyEdge
  autolock : Bool
  layoutRuns : List LayoutOptions
  deriving DecidableEq, Repr

/-- The state of a mounted view: the surface, the React state `hoveredNode` of line 94, whether
the host passed `onNodeClick`, and the calls made to it so far (oldest first). -/
structure View where
  cy : Cy
  hoveredNode : Option NodeData
  hasOnNodeClick : Bool
  selections : List NodeData
  deriving DecidableEq, Repr

/-- The surface as it is created from the render records: every record becomes an element with no
style of its own, not yet positioned, grabbable, and nothing is locked. The records are taken as
they are: a node record is taken to carry its id and an edge record to have its two endpoints
among the nodes; what the rendering library does with other records (an id of its own making for
a node without one, no edge without its endpoints) is not modelled. The theorems about a surface
hold for every list of records, so also for one that holds only part of a build. -/
def Cy.ofElements (elements : List Element) : Cy :=
  { nodes := (elements.filterMap Element.nodeData?).map
      (fun d => { data := d, bypass := [], position := (0, 0), grabbable := true })
    edges := (elements.filterMap Element.edgeData?).map (fun d => { data := d, bypass := [] })
    autolock := false
    layoutRuns := [] }

/-- Whether an edge is one of `node.connectedEdges()`: its source or its target is the node.
Elements are addressed by string ids. -/
def CyNode.connects (n : CyNode) (e : CyEdge) : Bool :=
  match n.data.id with
  | .str s => e.data.source == .str s || e.data.target == .str s
  | _ => false

/-- The style object of line 105, written on the node the pointer enters. -/
def mouseoverNodeStyle : Style :=
  [ ("width", .num 60), ("height", .num 60), ("border-width", .num 3),
    ("border-color", .color (.hex "#c084fc")) ]

/-- The style object of line 106, written on the edges of the node the pointer enters. -/
def mouseoverEdgeStyle : Style :=
  [ ("width", .num 3), ("line-color", .color (.hex "#a855f7")),
    ("target-arrow-color", .color (.hex "#a855f7")) ]

/-- The style object of lines 112-116, written on the node the pointer leaves. A palette is an
object, so `NODE_COLORS[label] || NODE_COLORS.Company` is the entry when there is one. -/
def mouseoutNodeStyle (d : NodeData) : Style :=
  let label := d.label
  let name := d.name
  let colors :=
    if name = .str "Infosys" then INFOSYS_COLOR
    else (nodeColorsAt label).getD NODE_COLORS_Company
  let sz : ℚ := if name = .str "Infosys" then 65 else 45
  [ ("width", .num sz), ("height", .num sz),
    ("border-width", .num (if name = .str "Infosys" then 3 else 2)),
    ("border-color", .color colors.border) ]

/-- The style object of lines 118-119, written on each edge of the node the pointer leaves. -/
def mouseoutEdgeStyle (d : EdgeData) : Style :=
  let rel := d.relationship
  [ ("width", .num 1.5),
    ("line-color", (edgeColorsAt rel).getD (.color (.rgba 124 58 237 0.3))),
    ("target-arrow-color", (edgeColorsAt rel).getD (.color (.rgba 124 58 237 0.5))) ]

/-- The handler of lines 102-107, for the node at index `i` of the surface. -/
def mouseover (v : View) (i : Nat) : View :=
  match v.cy.nodes[i]? with
  | none => v
  | some node =>
    { v with
      hoveredNode := some node.data
      cy := { v.cy with
        nodes := v.cy.nodes.modify
          (fun n => { n with bypass := Style.write mouseoverNodeStyle n.bypass }) i
        edges := v.cy.edges.map (fun e =>
          if node.connects e then { e with bypass := Style.write mouseoverEdgeStyle e.bypass }
          else e) } }

/-- The handler of lines 109-121, for the node at index `i` of the surface. -/
def mouseout (v : View) (i : Nat) : View :=
  match v.cy.nodes[i]? with
  | none => v
  | some node =>
    { v with
      hoveredNode := none
      cy := { v.cy with
        nodes := v.cy.nodes.modify
          (fun n => { n with bypass := Style.write (mouseoutNodeStyle node.data) n.bypass }) i
        edges := v.cy.edges.map (fun e =>
          if node.connects e then
            { e with bypass := Style.write (mouseoutEdgeStyle e.data) e.bypass }
          else e) } }

/-- The handler of lines 123-125, for the node at index `i` of the surface: the host callback,
when there is one, is called with the node's data. -/
def tap (v : View) (i : Nat) : View :=
  match v.cy.nodes[i]? with
  | none => v
  | some node =>
    if v.hasOnNodeClick then { v with selections := v.selections ++ [node.data] } else v

/-- The loop of lines 128-133: an edge for which `EDGE_COLORS[rel]` is truthy gets that value
for its line and its arrowhead; any other edge is left as it is. What the rendering library does
with a value that is not a colour is outside this file. -/
def applyEdgeColors (cy : Cy) : Cy :=
  { cy with
    edges := cy.edges.map (fun edge =>
      let rel := edge.data.relationship
      match edgeColorsAt rel with
      | some c =>
        { edge with
          bypass := Style.write [ ("line-color", c), ("target-arrow-color", c) ]
            edge.bypass }
      | none => edge) }

/-- The view when the pointer handlers start to receive events, as far as data, style and focus
go: the surface built from the render records, after the edge colouring of lines 128-133, with
nothing hovered and no call made to the host. -/
def View.initial (elements : List Element) (hasOnNodeClick : Bool) : View :=
  { cy := applyEdgeColors (Cy.ofElements elements)
    hoveredNode := none
    hasOnNodeClick := hasOnNodeClick
    selections := [] }

/-- The style a node of the surface shows for a property. -/
def CyNode.style (n : CyNode) (ps : Pseudo) (prop : String) : Option StyleValue :=
  styleOf (.node n.data) n.bypass ps prop

/-- The style an edge of the surface shows for a property. -/
def CyEdge.style (e : CyEdge) (ps : Pseudo) (prop : String) : Option StyleValue :=
  styleOf (.edge e.data) e.bypass ps prop

/-- A pointer event on the node at index `i` of the surface. -/
inductive Event where
  | mouseover (i : Nat)
  | mouseout (i : Nat)
  | tap (i : Nat)
  deriving DecidableEq, Repr

/-- The handler that an event runs. -/
def step (v : View) : Event → View
  | .mouseover i => mouseover v i
  | .mouseout i => mouseout v i
  | .tap i => tap v i

/-- The view after a sequence of events, handled one after the other. -/
def run (v : View) (events : List Event) : View :=
  events.foldl step v

/-- The node an event is about. -/
def Event.target : Event → Nat
  | .mouseover i => i
  | .mouseout i => i
  | .tap i => i

/-! ## The setup of the surface -/

/-- The options object of lines 136-146. -/
def layoutOptions : LayoutOptions :=
  { name := "cose"
    animate := false
    randomize := false
    fit := true
    padding := 60
    nodeRepulsion := 400000
    idealEdgeLength := 120
    gravity := 0
    numIter := 1000 }

/-- A call that `handleCyReady` makes on the surface. -/
inductive SetupStep where
  /-- The call `cy.on(event, selector, handler)`. -/
  | on (event : String) (selector : String)
  /-- The loop of lines 128-133. -/
  | edgeColors
  /-- The call `cy.layout(opts).run()`. -/
  | layoutRun (opts : LayoutOptions)
  /-- The call `cy.nodes().ungrabify()`. -/
  | ungrabify
  /-- The call `cy.autolock(b)`. -/
  | autolock (b : Bool)
  deriving DecidableEq, Repr

/-- Whether a setup call runs a layout. -/
def SetupStep.isLayoutRun : SetupStep → Bool
  | .layoutRun _ => true
  | _ => false

/-- Whether a setup call is one of the two locking calls. -/
def SetupStep.isLock : SetupStep → Bool
  | .ungrabify => true
  | .autolock _ => true
  | _ => false

/-- The calls of `handleCyReady` (lines 99-151) on the surface, in the order of the source. The
assignment to `cyRef.current` of line 100 is not a call on the surface and is left out. -/
def handleCyReadySteps : List SetupStep :=
  [ .on "mouseover" "node",
    .on "mouseout" "node",
    .on "tap" "node",
    .edgeColors,
    .layoutRun layoutOptions,
    .ungrabify,
    .autolock true ]

/-- The effect of one setup call on the surface. The layout algorithm belongs to the rendering
library and is the parameter `layout`: the position it computes for the node at each index.
Registering a handler changes nothing on the surface; a run of the layout is recorded and moves
the nodes, unless the surface is locked: a locked node is not moved by a layout. -/
def SetupStep.exec (layout : LayoutOptions → Cy → Nat → ℚ × ℚ) (cy : Cy) : SetupStep → Cy
  | .on _ _ => cy
  | .edgeColors => applyEdgeColors cy
  | .layoutRun opts =>
    { cy with
      nodes := cy.nodes.mapIdx (fun k n =>
        { n with position := if cy.autolock then n.position else layout opts cy k })
      layoutRuns := cy.layoutRuns ++ [opts] }
  | .ungrabify => { cy with nodes := cy.nodes.map (fun n => { n with grabbable := false }) }
  | .autolock b => { cy with autolock := b }

/-- The callback `handleCyReady` of lines 99-151: its calls, made one after the other. -/
def handleCyReady (layout : LayoutOptions → Cy → Nat → ℚ × ℚ) (cy : Cy) : Cy :=
  handleCyReadySteps.foldl (SetupStep.exec layout) cy

/-- The view when `handleCyReady` has returned for the first time on a surface: the handlers
only run on events dispatched after that, so this is the view in which the first pointer event
is handled. The later runs of `handleCyReady` on the same surface are in `Mounted`. -/
def View.ready (layout : LayoutOptions → Cy → Nat → ℚ × ℚ) (elements : List Element)
    (hasOnNodeClick : Bool) : View :=
  { cy := handleCyReady layout (Cy.ofElements elements)
    hoveredNode := none
    hasOnNodeClick := hasOnNodeClick
    selections := [] }

/-! ## The component and its overlay -/

/-- The tooltip of lines 181-194: the colour of its title, the title and the type shown. -/
structure Tooltip where
  color : Color
  name : JSVal
  type : JSVal
  deriving DecidableEq, Repr

/-- What a render of the component returns (lines 153-198): the records handed to the surface,
the legend entries, and the tooltip when the render has one. The tooltip is returned as the child
of `AnimatePresence`; what is in the document after the render is `Presence`. -/
structure Rendered where
  elements : List Element
  legend : List (String × Color)
  tooltip : Option Tooltip
  deriving DecidableEq, Repr

/-- The tooltip expression of lines 180-195: `hoveredNode && (...)`, with the title coloured
`NODE_COLORS[hoveredNode.label]?.main || '#a855f7'`. -/
def tooltipOf (hoveredNode : Option NodeData) : Option Tooltip :=
  match hoveredNode with
  | none => none
  | some d =>
    some { color := ((nodeColorsAt d.label).map Palette.main).getD (.hex "#a855f7")
           name := d.name
           type := d.label }

/-- One render of the function component `GraphView` (lines 93-199) in explicit state passing:
from the props and the current value of the state `hoveredNode`, what is returned and the value
of the state afterwards. `useState(null)` gives the current state of a mounted component, and the
body calls `setHoveredNode` nowhere outside the pointer handlers, so the state is passed on as it
is. -/
def render (graphData : Payload) (hoveredNode : Option NodeData) :
    Rendered × Option NodeData :=
  let elements := buildElements graphData
  ({ elements := elements
     legend := NODE_COLORS.map (fun (label, colors) => (label, colors.main))
     tooltip := tooltipOf hoveredNode },
   hoveredNode)

/-- The first render of the component, when it is mounted: `useState(null)` starts the state
`hoveredNode` at `null`. -/
def mount (graphData : Payload) : Rendered × Option NodeData :=
  render graphData none

/-! ## The mounted component -/

/-- The mounted component between two events: the view, and the number of times `handleCyReady`
has run on the surface. Every run registers the three handlers once more (lines 102-125; nothing
removes a handler), so this is also the number of copies of each handler that an event runs. -/
structure Mounted where
  view : View
  setups : Nat
  deriving DecidableEq, Repr

/-- The commit of a render of the component. The surface is rendered with `cy={handleCyReady}`
(line 164), and the surface component calls that function with the surface after every render of
it, the first one and the later ones: the whole setup runs again on the same surface. The records
of the render are those the surface already has. -/
def Mounted.commit (layout : LayoutOptions → Cy → Nat → ℚ × ℚ) (m : Mounted) : Mounted :=
  { view := { m.view with cy := handleCyReady layout m.view.cy }
    setups := m.setups + 1 }

/-- Mounting the component on a payload: the first render, its records on a new surface, and
the commit of that render. -/
def Mounted.mount (layout : LayoutOptions → Cy → Nat → ℚ × ℚ) (graphData : Payload)
    (hasOnNodeClick : Bool) : Mounted :=
  Mounted.commit layout
    { view :=
        { cy := Cy.ofElements (GraphView.mount graphData).1.elements
          hoveredNode := (GraphView.mount graphData).2
          hasOnNodeClick := hasOnNodeClick
          selections := [] }
      setups := 0 }

/-- A pointer event on the mounted component: every registered copy of the handler runs; when
that has changed the state `hoveredNode`, React renders the component again and the render is
committed; a state that is set to the value it has causes no render. -/
def Mounted.dispatch (layout : LayoutOptions → Cy → Nat → ℚ × ℚ) (m : Mounted) (e : Event) :
    Mounted :=
  let v := Nat.iterate (fun v => step v e) m.setups m.view
  if v.hoveredNode = m.view.hoveredNode then { m with view := v }
  else Mounted.commit layout { m with view := v }

/-- The mounted component after a sequence of pointer events. -/
def Mounted.run (layout : LayoutOptions → Cy → Nat → ℚ × ℚ) (m : Mounted)
    (events : List Event) : Mounted :=
  events.foldl (Mounted.dispatch layout) m

/-! ## The tooltip in the document -/

/-- A motion value of the tooltip: an opacity and a vertical offset. -/
structure Motion where
  opacity : ℚ
  y : ℚ
  deriving DecidableEq, Repr

/-- The prop `initial` of the tooltip, line 182. -/
def tooltipInitial : Motion :=
  { opacity := 0, y := 10 }

/-- The prop `animate` of the tooltip, line 183. -/
def tooltipAnimate : Motion :=
  { opacity := 1, y := 0 }

/-- The prop `exit` of the tooltip, line 184. -/
def tooltipExit : Motion :=
  { opacity := 0, y := 10 }

/-- The tooltip in the document. The tooltip expression is the child of `AnimatePresence`
(lines 179-196) and has an `exit` prop: while the component renders the tooltip it is in the
document; when the component stops rendering it, it stays in the document, with the content it
had, while it is animated towards `exit`, and it is removed when that animation has ended. -/
inductive Presence where
  | absent
  | present (t : Tooltip)
  | exiting (t : Tooltip) (target : Motion)
  deriving DecidableEq, Repr

/-- The document after the commit of a render, from the document before it and the tooltip that
the render returned. -/
def Presence.commit (before : Presence) (rendered : Option Tooltip) : Presence :=
  match rendered, before with
  | some t, _ => .present t
  | none, .present t => .exiting t tooltipExit
  | none, .exiting t target => .exiting t target
  | none, .absent => .absent

/-- The document when the exit animation has ended. -/
def Presence.exitComplete : Presence → Presence
  | .exiting _ _ => .absent
  | p => p

/-- The tooltip that is in the document, if there is one. -/
def Presence.shown : Presence → Option Tooltip
  | .absent => none
  | .present t => some t
  | .exiting t _ => some t

/-! ## The focus, from the words of the specification -/

/-- Whether an event is a pointer-leave. -/
def Event.isLeave : Event → Bool
  | .mouseout _ => true
  | _ => false

/-- The pointer-enters that no pointer-leave follows, oldest first, each given by its node. -/
def entersNotLeft : List Event → List Nat
  | [] => []
  | .mouseover i :: rest =>
    if rest.any Event.isLeave then entersNotLeft rest else i :: entersNotLeft rest
  | _ :: rest => entersNotLeft rest

/-- The focus that the specification expects after a sequence of events (oldest first): the data
of the node of the most recent pointer-enter not followed by a pointer-leave, none when there is
no such pointer-enter. -/
def expectedFocus (nodes : List NodeData) (events : List Event) : Option NodeData :=
  match (entersNotLeft events).getLast? with
  | none => none
  | some i => nodes[i]?

/-- The same node, read off the events listed most recent first: a click is passed over, a
pointer-enter is the answer, a pointer-leave means there is none. -/
def lastEnter : List Event → Option Nat
  | [] => none
  | .mouseover i :: _ => some i
  | .mouseout _ :: _ => none
  | .tap _ :: rest => lastEnter rest

end GraphView

/-! # ComparisonTable: the sorted rows

A shallow embedding of the sorting of `src/frontend/src/components/ComparisonTable.jsx`, lines
5-28. A cell of the comparison data is a string or is missing, as the code takes it to be: it
falls back to the empty string and calls `localeCompare` on the result. The collation
`localeCompare` and the sorting algorithm belong to the JavaScript engine: the first is a
parameter, the second is modelled by a stable sort.
-/

namespace ComparisonTable

open GraphView

/-- A row of the comparison data: an object, given by its keys and their values. -/
abbrev Row := List (String × JSVal)

/-- The expression `row[key]`: the value of the key, `undefined` when the row has none. -/
def Row.get (row : Row) (key : String) : JSVal :=
  (List.lookup key row).getD .undefined

/-- The string that a string value is. After `|| ''` every value is a string; the other cases do
not arise there. -/
def text : JSVal → String
  | .str s => s
  | _ => ""

/-- The two state cells of lines 6-7: `sortKey`, `null` or a column name, and `sortDir`. -/
structure SortState where
  sortKey : JSVal
  sortDir : String
  deriving DecidableEq, Repr

/-- The state of a freshly mounted table: `useState(null)` and `useState('asc')`. -/
def SortState.initial : SortState :=
  { sortKey := .null, sortDir := "asc" }

/-- The function `handleSort` of lines 14-21, as the state after the call. -/
def handleSort (st : SortState) (col : String) : SortState :=
  if st.sortKey = .str col then
    { st with sortDir := if st.sortDir = "asc" then "desc" else "asc" }
  else
    { sortKey := .str col, sortDir := "asc" }

/-- The comparison function of lines 23-28. -/
def compareRows (localeCompare : String → String → Int) (st : SortState) (a b : Row) : Int :=
  if !st.sortKey.truthy then 0
  else
    let va := (a.get st.sortKey.key).or (.str "")
    let vb := (b.get st.sortKey.key).or (.str "")
    if st.sortDir = "asc" then localeCompare (text va) (text vb)
    else localeCompare (text vb) (text va)

/-- The method `Array.prototype.sort(compare)`, as the array it leaves: a stable sort, which
puts `a` before `b` when `compare(a, b)` is negative, `b` before `a` when it is positive, and
keeps the order of the array when it is zero. The elements are inserted one by one, from the
last to the first, each before the first element it does not have to follow; for a consistent
comparison this is the one result a stable sort can give. -/
def arraySort {α : Type} (compare : α → α → Int) (xs : List α) : List α :=
  xs.insertionSort (fun a b => compare a b ≤ 0)

/-- What a render of the table leaves: the array `data` of the host, and the array `sorted`
whose rows are displayed, one table row each, in order (lines 75-99). -/
structure TableRender where
  data : List Row
  sorted : List Row
  deriving DecidableEq, Repr

/-- Lines 9-28 of the component: `none` when it returns `null` (no data, or an empty list);
otherwise `[...data]` copies the array, `sort` sorts the copy, and `data` is left as it is. -/
def tableRender (localeCompare : String → String → Int) (data : Option (List Row))
    (st : SortState) : Option TableRender :=
  match data with
  | none => none
  | some rows =>
    if rows.length = 0 then none
    else
      let copy := rows
      let sorted := arraySort (compareRows localeCompare st) copy
      some { data := rows, sorted := sorted }

end ComparisonTable



namespace GraphView

/-! ## The graph element builder -/

theorem buildElements_object (g : GraphData) :
    buildElements (.object g) =
      (g.nodes.getD []).map nodeRecord ++ (g.edges.getD []).mapIdx edgeRecord := rfl

theorem buildElements_node_at (g : GraphData) (i : Nat) (n : RawNode)
    (h : (g.nodes.getD [])[i]? = some n) :
    (buildElements (.object g))[i]? = some (nodeRecord n) := by
  have hi : i < (g.nodes.getD []).length := by
    rcases Nat.lt_or_ge i (g.nodes.getD []).length with hlt | hge
    · exact hlt
    · rw [List.getElem?_eq_none hge] at h
      cases h
  rw [buildElements_object, List.getElem?_append_left (by simpa using hi), List.getElem?_map, h]
  rfl

theorem buildElements_edge_at (g : GraphData) (j : Nat) (e : RawEdge)
    (h : (g.edges.getD [])[j]? = some e) :
    (buildElements (.object g))[(g.nodes.getD []).length + j]? = some (edgeRecord j e) := by
  rw [buildElements_object, List.getElem?_append_right (by simp)]
  simp [List.getElem?_mapIdx, h]

/-- C1. For every payload object, with `N` nodes and `M` edges (a missing list counts as empty),
`buildElements` returns exactly `N + M` records; the record at position `i < N` is a node record
with the name and label of the `i`-th input node, and the record at position `N + j` with `j < M`
is an edge record with the source, target and relationship of the `j`-th input edge. -/
theorem buildElements_count_and_order (g : GraphData) :
    (buildElements (.object g)).length = (g.nodes.getD []).length + (g.edges.getD []).length ∧
    (∀ (i : Nat) (n : RawNode), (g.nodes.getD [])[i]? = some n →
      ∃ d : NodeData, (buildElements (.object g))[i]? = some (Element.node d) ∧
        d.name = n.name ∧ d.label = n.label) ∧
    (∀ (j : Nat) (e : RawEdge), (g.edges.getD [])[j]? = some e →
      ∃ d : EdgeData,
        (buildElements (.object g))[(g.nodes.getD []).length + j]? = some (Element.edge d) ∧
        d.source = e.source ∧ d.target = e.target ∧ d.relationship = e.relationship) := by
  refine ⟨?_, ?_, ?_⟩
  · simp [buildElements_object]
  · intro i n h
    exact ⟨_, buildElements_node_at g i n h, rfl, rfl⟩
  · intro j e h
    exact ⟨_, buildElements_edge_at g j e h, rfl, rfl, rfl⟩

theorem digitValue_digitChar (d : Nat) (h : d < 10) : digitValue (Nat.digitChar d) = d := by
  interval_cases d <;> rfl

theorem readDigits_toDigitsCore (fuel : Nat) :
    ∀ (n : Nat) (ds : List Char), n < fuel →
      readDigits 0 (Nat.toDigitsCore 10 fuel n ds) = readDigits n ds := by
  induction fuel with
  | zero => intro n ds h; omega
  | succ fuel ih =>
    intro n ds h
    have hd : digitValue (Nat.digitChar (n % 10)) = n % 10 :=
      digitValue_digitChar _ (Nat.mod_lt _ (by decide))
    unfold Nat.toDigitsCore
    by_cases h0 : n / 10 = 0
    · simp only [h0, if_true]
      have hn : n % 10 = n := by omega
      rw [hn] at hd
      simp only [readDigits, List.foldl_cons, hd, hn, Nat.zero_mul, Nat.zero_add]
    · simp only [h0, if_false]
      rw [ih (n / 10) _ (by omega)]
      simp only [readDigits, List.foldl_cons, hd]
      congr 1
      omega

theorem toDigits_injective : Function.Injective (Nat.toDigits 10) := by
  intro a b h
  have ha := readDigits_toDigitsCore (a + 1) a [] (by omega)
  have hb := readDigits_toDigitsCore (b + 1) b [] (by omega)
  have h' : Nat.toDigitsCore 10 (a + 1) a [] = Nat.toDigitsCore 10 (b + 1) b [] := h
  rw [h', hb] at ha
  simpa [readDigits] using ha.symm

theorem repr_injective : Function.Injective Nat.repr := by
  intro a b h
  apply toDigits_injective
  have := congrArg String.data h
  simpa [Nat.repr, List.asString] using this

theorem edgeId_injective : Function.Injective edgeId := by
  intro a b h
  apply repr_injective
  have h1 := congrArg String.data h
  simp only [edgeId, String.data_append] at h1
  exact String.ext (List.append_cancel_left h1)

theorem renderEdges_buildElements (g : GraphData) :
    renderEdges (buildElements (.object g)) =
      (g.edges.getD []).mapIdx (fun i e =>
        { id := edgeId i, source := e.source, target := e.target,
          relationship := e.relationship }) := by
  have h1 : List.filterMap Element.edgeData? ((g.nodes.getD []).map nodeRecord) = [] := by
    rw [List.filterMap_eq_nil_iff]
    intro a ha
    obtain ⟨n, -, rfl⟩ := List.mem_map.1 ha
    rfl
  rw [renderEdges, buildElements_object, List.filterMap_append, h1, List.nil_append,
    List.mapIdx_eq_enum_map, List.mapIdx_eq_enum_map, List.filterMap_map]
  have h2 : Element.edgeData? ∘ Function.uncurry edgeRecord =
      some ∘ Function.uncurry (fun i (e : RawEdge) =>
        ({ id := edgeId i, source := e.source, target := e.target,
           relationship := e.relationship } : EdgeData)) := by
    funext x
    rfl
  rw [h2, List.filterMap_eq_map]

/-- C6. When the payload is absent, `undefined` or `null`, `buildElements` returns the empty
sequence. -/
theorem buildElements_absent :
    buildElements .undefined = [] ∧ buildElements .null = [] :=
  ⟨rfl, rfl⟩

/-- C7, as stated, fails: a payload whose node list is empty and which has one edge does not
build the empty sequence; it builds the record of that edge. -/
theorem buildElements_no_nodes_not_empty :
    (GraphData.mk (some []) (some [⟨.str "a", .str "b", .str "USES"⟩])).nodes.getD [] = [] ∧
    buildElements (.object ⟨some [], some [⟨.str "a", .str "b", .str "USES"⟩]⟩) =
      [.edge ⟨"e0", .str "a", .str "b", .str "USES"⟩] ∧
    buildElements (.object ⟨some [], some [⟨.str "a", .str "b", .str "USES"⟩]⟩) ≠ [] := by
  decide

/-- C7, amended. For every payload object that has no nodes (the list is missing or empty),
`buildElements` returns exactly the records of its edges, in input order; the result is the empty
sequence exactly when the payload has no edges either. -/
theorem buildElements_no_nodes (g : GraphData) (h : g.nodes.getD [] = []) :
    buildElements (.object g) = (g.edges.getD []).mapIdx edgeRecord ∧
    (buildElements (.object g)).length = (g.edges.getD []).length ∧
    (buildElements (.object g) = [] ↔ g.edges.getD [] = []) := by
  have h1 : buildElements (.object g) = (g.edges.getD []).mapIdx edgeRecord := by
    rw [buildElements_object, h, List.map_nil, List.nil_append]
  refine ⟨h1, ?_, ?_⟩
  · rw [h1, List.length_mapIdx]
  · rw [h1, ← List.length_eq_zero, List.length_mapIdx, List.length_eq_zero]

theorem buildElements_no_nodes_witness :
    (GraphData.mk none (some [⟨.str "a", .str "b", .str "USES"⟩])).nodes.getD [] = [] ∧
    buildElements (.object ⟨none, some [⟨.str "a", .str "b", .str "USES"⟩]⟩) =
      [edgeRecord 0 ⟨.str "a", .str "b", .str "USES"⟩] :=
  ⟨rfl, (buildElements_no_nodes ⟨none, some [⟨.str "a", .str "b", .str "USES"⟩]⟩ rfl).1⟩

/-- C8, as stated, fails: a node whose id is present but is the empty string gets its name as
the render id, not its own id. -/
theorem buildElements_empty_id_takes_name :
    (RawNode.mk (.str "") (.str "Acme") (.str "Company")).id ≠ .undefined ∧
    buildElements (.object ⟨some [⟨.str "", .str "Acme", .str "Company"⟩], none⟩) =
      [.node ⟨.str "Acme", .str "Acme", .str "Company"⟩] ∧
    (JSVal.str "Acme") ≠ (RawNode.mk (.str "") (.str "Acme") (.str "Company")).id := by
  decide

/-- C8, amended. For every input node, the render node at the same position has the node's own
id when that id is a non-empty string, and the node's name when the id is missing, `null` or the
empty string; name and label are copied unchanged. -/
theorem buildElements_node_id (g : GraphData) (i : Nat) (n : RawNode)
    (h : (g.nodes.getD [])[i]? = some n) :
    ∃ d : NodeData, (buildElements (.object g))[i]? = some (Element.node d) ∧
      (∀ s : String, n.id = .str s → s ≠ "" → d.id = n.id) ∧
      (n.id = .undefined ∨ n.id = .null ∨ n.id = .str "" → d.id = n.name) ∧
      d.name = n.name ∧ d.label = n.label := by
  refine ⟨_, buildElements_node_at g i n h, ?_, ?_, rfl, rfl⟩
  · intro s hs hne
    simp [JSVal.or, JSVal.truthy, hs, hne]
  · intro hid
    rcases hid with hid | hid | hid <;> simp [JSVal.or, JSVal.truthy, hid]

theorem buildElements_node_id_witness :
    ∃ d : NodeData,
      (buildElements (.object ⟨some [⟨.str "n1", .str "Acme", .str "Company"⟩], none⟩))[0]? =
        some (Element.node d) ∧
      d.id = .str "n1" ∧ d.name = .str "Acme" ∧ d.label = .str "Company" := by
  obtain ⟨d, hd, hid, -, hname, hlabel⟩ :=
    buildElements_node_id ⟨some [⟨.str "n1", .str "Acme", .str "Company"⟩], none⟩ 0
      ⟨.str "n1", .str "Acme", .str "Company"⟩ rfl
  exact ⟨d, hd, hid "n1" rfl (by decide), hname, hlabel⟩

/-- C9, as stated, fails: a node with neither an id nor a name is not skipped; a record is
emitted for it, with an undefined id. -/
theorem buildElements_keeps_nameless_node :
    buildElements (.object
      ⟨some [⟨.undefined, .undefined, .str "Company"⟩, ⟨.str "b", .str "B", .str "Product"⟩],
       none⟩) =
      [.node ⟨.undefined, .undefined, .str "Company"⟩,
       .node ⟨.str "b", .str "B", .str "Product"⟩] := by
  decide

/-- C9, amended. For every payload, a node that has neither an id nor a name is not skipped:
`buildElements` emits a node record for it at its input position, with id and name undefined and
the label copied. The output keeps one record for every node and every edge, and the records of
all nodes and edges are produced as usual. -/
theorem buildElements_nameless_node (g : GraphData) (i : Nat) (n : RawNode)
    (h : (g.nodes.getD [])[i]? = some n) (hid : n.id = .undefined) (hname : n.name = .undefined) :
    (buildElements (.object g))[i]? = some (Element.node ⟨.undefined, .undefined, n.label⟩) ∧
    (buildElements (.object g)).length = (g.nodes.getD []).length + (g.edges.getD []).length ∧
    (∀ (k : Nat) (m : RawNode), (g.nodes.getD [])[k]? = some m →
      (buildElements (.object g))[k]? = some (nodeRecord m)) ∧
    (∀ (j : Nat) (e : RawEdge), (g.edges.getD [])[j]? = some e →
      (buildElements (.object g))[(g.nodes.getD []).length + j]? = some (edgeRecord j e)) := by
  refine ⟨?_, ?_, buildElements_node_at g, buildElements_edge_at g⟩
  · rw [buildElements_node_at g i n h]
    simp [nodeRecord, JSVal.or, JSVal.truthy, hid, hname]
  · simp [buildElements_object]

theorem buildElements_nameless_node_witness :
    (buildElements (.object ⟨some [⟨.undefined, .undefined, .str "Region"⟩], none⟩))[0]? =
      some (Element.node ⟨.undefined, .undefined, .str "Region"⟩) :=
  (buildElements_nameless_node ⟨some [⟨.undefined, .undefined, .str "Region"⟩], none⟩ 0
    ⟨.undefined, .undefined, .str "Region"⟩ rfl rfl rfl).1

/-- C10. For every payload, the `i`-th render edge (counting from 0) has the id made of the
letter e followed by the decimal form of `i`; the ids of the render edges of one build are
pairwise distinct; and the id of the `i`-th render edge is the same in every build, so building
the same payload twice gives every edge the same id. -/
theorem buildElements_edge_ids (p : Payload) :
    (∀ (i : Nat) (d : EdgeData), (renderEdges (buildElements p))[i]? = some d →
      d.id = "e" ++ Nat.repr i ∧ readDigits 0 (Nat.repr i).data = i) ∧
    ((renderEdges (buildElements p)).map EdgeData.id).Nodup ∧
    (∀ (q : Payload) (i : Nat) (d d' : EdgeData),
      (renderEdges (buildElements p))[i]? = some d →
      (renderEdges (buildElements q))[i]? = some d' → d.id = d'.id) := by
  have key : ∀ (r : Payload) (i : Nat) (d : EdgeData),
      (renderEdges (buildElements r))[i]? = some d → d.id = edgeId i := by
    intro r i d h
    cases r with
    | undefined => simp [buildElements, renderEdges] at h
    | null => simp [buildElements, renderEdges] at h
    | object g =>
      rw [renderEdges_buildElements, List.getElem?_mapIdx] at h
      cases he : (g.edges.getD [])[i]? with
      | none => simp [he] at h
      | some e =>
        simp only [he, Option.map_some', Option.some.injEq] at h
        rw [← h]
  refine ⟨?_, ?_, ?_⟩
  · intro i d h
    refine ⟨key p i d h, ?_⟩
    have := readDigits_toDigitsCore (i + 1) i [] (by omega)
    simpa [Nat.repr, List.asString, Nat.toDigits, readDigits] using this
  · rw [List.nodup_iff_getElem?_ne_getElem?]
    intro i j hij hj h
    rw [List.length_map] at hj
    have hi : i < (renderEdges (buildElements p)).length := by omega
    rw [List.getElem?_map, List.getElem?_map, List.getElem?_eq_getElem hi,
      List.getElem?_eq_getElem hj] at h
    simp only [Option.map_some', Option.some.injEq] at h
    rw [key p i _ (List.getElem?_eq_getElem hi), key p j _ (List.getElem?_eq_getElem hj)] at h
    have := edgeId_injective h
    omega
  · intro q i d d' h h'
    rw [key p i d h, key q i d' h']

/-! ## Styles: reading a written style and the stylesheet cascade -/

theorem lookup_filter_key (f : String → Bool) (k : String) (b : Style) :
    (b.filter (fun p => f p.1)).lookup k = if f k then b.lookup k else none := by
  induction b with
  | nil => simp
  | cons p b ih =>
    obtain ⟨a, x⟩ := p
    by_cases hka : k = a
    · subst hka
      by_cases hf : f k = true
      · simp [List.filter_cons, hf]
      · simp only [Bool.not_eq_true] at hf
        simp [List.filter_cons, hf, ih]
    · have hbeq : (k == a) = false := by simpa using hka
      by_cases hf : f a = true
      · simp [List.filter_cons, hf, List.lookup_cons, hbeq, ih]
      · simp only [Bool.not_eq_true] at hf
        simp [List.filter_cons, hf, List.lookup_cons, hbeq, ih]

/-- Reading a property after `ele.style(obj)`: the value of `obj` when `obj` has the property,
the value the element had before otherwise. -/
theorem lookup_write (obj bypass : Style) (k : String) :
    (Style.write obj bypass).lookup k =
      match obj.lookup k with
      | some v => some v
      | none => bypass.lookup k := by
  rw [Style.write, List.lookup_append,
    lookup_filter_key (fun a => !(obj.any (fun q => q.1 == a))) k bypass]
  cases h : obj.lookup k with
  | some v => simp
  | none =>
    have hk : obj.any (fun q => q.1 == k) = false := by
      rw [List.any_eq_false]
      intro x hx
      have := (List.lookup_eq_none_iff.1 h) x hx
      simp only [bne_iff_ne, ne_eq] at this
      simpa using fun h' => this h'.symm
    simp [hk]

theorem sheetValue_edge (d : EdgeData) (ps : Pseudo) :
    sheetValue cytoscapeStylesheet (.edge d) ps "width" = some (.num 1.5) ∧
    sheetValue cytoscapeStylesheet (.edge d) ps "line-color" =
      some (.color (.rgba 124 58 237 0.3)) ∧
    sheetValue cytoscapeStylesheet (.edge d) ps "target-arrow-color" =
      some (.color (.rgba 124 58 237 0.5)) := by
  obtain ⟨hover, active⟩ := ps
  cases hover <;>
    simp [sheetValue, cytoscapeStylesheet, NODE_COLORS, Selector.matches, List.lookup]

theorem sheetValue_anchor (d : NodeData) (ps : Pseudo) (h : d.name = .str "Infosys") :
    sheetValue cytoscapeStylesheet (.node d) ps "background-color" =
      some (.color (.hex "#0066cc")) ∧
    sheetValue cytoscapeStylesheet (.node d) ps "border-color" =
      some (.color (.hex "#3399ff")) ∧
    sheetValue cytoscapeStylesheet (.node d) ps "width" = some (.num 65) ∧
    sheetValue cytoscapeStylesheet (.node d) ps "height" = some (.num 65) ∧
    sheetValue cytoscapeStylesheet (.node d) ps "border-width" = some (.num 3) := by
  obtain ⟨hover, active⟩ := ps
  cases hover <;> cases active <;>
    simp [sheetValue, cytoscapeStylesheet, NODE_COLORS, Selector.matches, List.lookup,
      NodeData.field, h, INFOSYS_COLOR]

theorem nodeColorsAt_eq_none (label : JSVal)
    (h : label.key ∉ NODE_COLORS.map Prod.fst) : nodeColorsAt label = none := by
  rw [nodeColorsAt, List.lookup_eq_none_iff]
  intro p hp
  simp only [bne_iff_ne, ne_eq]
  intro heq
  exact h (List.mem_map.2 ⟨p, hp, heq.symm⟩)

theorem sheetValue_plain_size (d : NodeData) (ps : Pseudo) (h : d.name ≠ .str "Infosys") :
    sheetValue cytoscapeStylesheet (.node d) ps "width" = some (.num 45) ∧
    sheetValue cytoscapeStylesheet (.node d) ps "height" = some (.num 45) ∧
    sheetValue cytoscapeStylesheet (.node d) ps "border-width" = some (.num 2) := by
  obtain ⟨hover, active⟩ := ps
  cases hover <;> cases active <;>
    simp [sheetValue, cytoscapeStylesheet, NODE_COLORS, Selector.matches, List.lookup,
      NodeData.field, h]

theorem sheetValue_unknown_label (d : NodeData) (ps : Pseudo) (h : d.name ≠ .str "Infosys")
    (hl : d.label.key ∉ NODE_COLORS.map Prod.fst) :
    sheetValue cytoscapeStylesheet (.node d) ps "background-color" = none ∧
    sheetValue cytoscapeStylesheet (.node d) ps "border-color" = none := by
  have hne : ∀ s ∈ NODE_COLORS.map Prod.fst, d.label ≠ .str s := by
    intro s hs heq
    apply hl
    rw [heq]
    exact hs
  simp only [NODE_COLORS, List.map_cons, List.map_nil, List.mem_cons, List.mem_singleton,
    List.not_mem_nil, or_false, forall_eq_or_imp, forall_eq] at hne
  obtain ⟨h1, h2, h3, h4, h5⟩ := hne
  obtain ⟨hover, active⟩ := ps
  cases hover <;> cases active <;>
    simp [sheetValue, cytoscapeStylesheet, NODE_COLORS, Selector.matches, List.lookup,
      NodeData.field, h, h1, h2, h3, h4, h5]

theorem sheetValue_known_label (d : NodeData) (ps : Pseudo) (h : d.name ≠ .str "Infosys")
    (s : String) (colors : Palette) (hl : d.label = .str s)
    (hc : NODE_COLORS.lookup s = some colors) :
    sheetValue cytoscapeStylesheet (.node d) ps "background-color" = some (.color colors.main) ∧
    sheetValue cytoscapeStylesheet (.node d) ps "border-color" =
      some (.color colors.border) := by
  obtain ⟨hover, active⟩ := ps
  by_cases h1 : s = "Company"
  · subst h1
    obtain rfl : NODE_COLORS_Company = colors := by simpa [NODE_COLORS, List.lookup] using hc
    cases hover <;> cases active <;>
      simp [sheetValue, cytoscapeStylesheet, NODE_COLORS, Selector.matches, List.lookup,
        NodeData.field, h, hl]
  by_cases h2 : s = "Product"
  · subst h2
    have hc' : colors = ⟨.hex "#a855f7", .hex "#c084fc", .hex "#d8b4fe"⟩ := by
      simpa [NODE_COLORS, List.lookup, eq_comm] using hc
    subst hc'
    cases hover <;> cases active <;>
      simp [sheetValue, cytoscapeStylesheet, NODE_COLORS, Selector.matches, List.lookup,
        NodeData.field, h, hl]
  by_cases h3 : s = "Partner"
  · subst h3
    have hc' : colors = ⟨.hex "#10b981", .hex "#34d399", .hex "#6ee7b7"⟩ := by
      simpa [NODE_COLORS, List.lookup, eq_comm] using hc
    subst hc'
    cases hover <;> cases active <;>
      simp [sheetValue, cytoscapeStylesheet, NODE_COLORS, Selector.matches, List.lookup,
        NodeData.field, h, hl]
  by_cases h4 : s = "Region"
  · subst h4
    have hc' : colors = ⟨.hex "#f59e0b", .hex "#fbbf24", .hex "#fde68a"⟩ := by
      simpa [NODE_COLORS, List.lookup, eq_comm] using hc
    subst hc'
    cases hover <;> cases active <;>
      simp [sheetValue, cytoscapeStylesheet, NODE_COLORS, Selector.matches, List.lookup,
        NodeData.field, h, hl]
  by_cases h5 : s = "Investment"
  · subst h5
    have hc' : colors = ⟨.hex "#ef4444", .hex "#f87171", .hex "#fca5a5"⟩ := by
      simpa [NODE_COLORS, List.lookup, eq_comm] using hc
    subst hc'
    cases hover <;> cases active <;>
      simp [sheetValue, cytoscapeStylesheet, NODE_COLORS, Selector.matches, List.lookup,
        NodeData.field, h, hl]
  · exfalso
    have hn : NODE_COLORS.lookup s = none := by
      rw [List.lookup_eq_none_iff]
      intro p hp
      simp only [NODE_COLORS, List.mem_cons, List.mem_singleton, List.not_mem_nil,
        or_false] at hp
      rcases hp with rfl | rfl | rfl | rfl | rfl <;> simpa
    rw [hn] at hc
    cases hc

/-! ## The handlers, element by element -/

theorem mouseover_of_none (v : View) (i : Nat) (h : v.cy.nodes[i]? = none) :
    mouseover v i = v := by
  simp [mouseover, h]

theorem mouseout_of_none (v : View) (i : Nat) (h : v.cy.nodes[i]? = none) :
    mouseout v i = v := by
  simp [mouseout, h]

theorem mouseover_nodes (v : View) (i : Nat) (node : CyNode) (h : v.cy.nodes[i]? = some node)
    (k : Nat) :
    (mouseover v i).cy.nodes[k]? =
      (v.cy.nodes[k]?).map (fun n =>
        if i = k then { n with bypass := Style.write mouseoverNodeStyle n.bypass } else n) := by
  simp only [mouseover, h, List.getElem?_modify]
  rfl

theorem mouseout_nodes (v : View) (i : Nat) (node : CyNode) (h : v.cy.nodes[i]? = some node)
    (k : Nat) :
    (mouseout v i).cy.nodes[k]? =
      (v.cy.nodes[k]?).map (fun n =>
        if i = k then { n with bypass := Style.write (mouseoutNodeStyle node.data) n.bypass }
        else n) := by
  simp only [mouseout, h, List.getElem?_modify]
  rfl

theorem mouseover_edges (v : View) (i : Nat) (node : CyNode) (h : v.cy.nodes[i]? = some node)
    (j : Nat) :
    (mouseover v i).cy.edges[j]? =
      (v.cy.edges[j]?).map (fun e =>
        if node.connects e then { e with bypass := Style.write mouseoverEdgeStyle e.bypass }
        else e) := by
  simp only [mouseover, h, List.getElem?_map]

theorem mouseout_edges (v : View) (i : Nat) (node : CyNode) (h : v.cy.nodes[i]? = some node)
    (j : Nat) :
    (mouseout v i).cy.edges[j]? =
      (v.cy.edges[j]?).map (fun e =>
        if node.connects e then
          { e with bypass := Style.write (mouseoutEdgeStyle e.data) e.bypass }
        else e) := by
  simp only [mouseout, h, List.getElem?_map]

theorem tap_cy (v : View) (i : Nat) : (tap v i).cy = v.cy := by
  unfold tap
  split
  · rfl
  · split <;> rfl

/-- No handler writes a background colour on a node: in every view reached from the initial one,
no node has a background colour of its own. -/
theorem run_no_background (elements : List Element) (cb : Bool) (events : List Event) :
    ∀ (k : Nat) (n : CyNode), (run (View.initial elements cb) events).cy.nodes[k]? = some n →
      n.bypass.lookup "background-color" = none := by
  induction events using List.reverseRecOn with
  | nil =>
    intro k n h
    simp only [run, List.foldl_nil, View.initial, applyEdgeColors, Cy.ofElements,
      List.getElem?_map] at h
    cases hd : (List.filterMap Element.nodeData? elements)[k]? with
    | none => simp [hd] at h
    | some d =>
      simp only [hd, Option.map_some', Option.some.injEq] at h
      rw [← h]
      rfl
  | append_singleton events e ih =>
    intro k n h
    simp only [run, List.foldl_append, List.foldl_cons, List.foldl_nil] at h
    change (step (run (View.initial elements cb) events) e).cy.nodes[k]? = some n at h
    generalize run (View.initial elements cb) events = v at h ih
    cases e with
    | tap i =>
      simp only [step, tap_cy] at h
      exact ih k n h
    | mouseover i =>
      simp only [step] at h
      cases hi : v.cy.nodes[i]? with
      | none =>
        rw [mouseover_of_none v i hi] at h
        exact ih k n h
      | some node =>
        rw [mouseover_nodes v i node hi] at h
        cases hk : v.cy.nodes[k]? with
        | none => simp [hk] at h
        | some m =>
          simp only [hk, Option.map_some', Option.some.injEq] at h
          have hm := ih k m hk
          by_cases hik : i = k
          · simp only [hik, if_true] at h
            rw [← h]
            simp only [lookup_write]
            simpa [mouseoverNodeStyle, List.lookup] using hm
          · simp only [hik, if_false] at h
            rw [← h]
            exact hm
    | mouseout i =>
      simp only [step] at h
      cases hi : v.cy.nodes[i]? with
      | none =>
        rw [mouseout_of_none v i hi] at h
        exact ih k n h
      | some node =>
        rw [mouseout_nodes v i node hi] at h
        cases hk : v.cy.nodes[k]? with
        | none => simp [hk] at h
        | some m =>
          simp only [hk, Option.map_some', Option.some.injEq] at h
          have hm := ih k m hk
          by_cases hik : i = k
          · simp only [hik, if_true] at h
            rw [← h]
            simp only [lookup_write]
            simpa [mouseoutNodeStyle, List.lookup] using hm
          · simp only [hik, if_false] at h
            rw [← h]
            exact hm

/-! ## The anchor node -/

/-- C3. For every label, a node whose name is "Infosys" gets the anchor palette (main `#0066cc`,
border `#3399ff`) and the size 65 from the stylesheet, where every other node gets 45 and
`45 < 65`; and in every view reached from the initial one, the style the node shows after the
mouseout handler has run on it is again the anchor palette and the size 65. -/
theorem anchor_encoding (d : NodeData) (ps : Pseudo) (h : d.name = .str "Infosys") :
    (sheetValue cytoscapeStylesheet (.node d) ps "background-color" =
        some (.color INFOSYS_COLOR.main) ∧
      INFOSYS_COLOR.main = .hex "#0066cc" ∧
      sheetValue cytoscapeStylesheet (.node d) ps "border-color" =
        some (.color INFOSYS_COLOR.border) ∧
      INFOSYS_COLOR.border = .hex "#3399ff" ∧
      sheetValue cytoscapeStylesheet (.node d) ps "width" = some (.num 65) ∧
      sheetValue cytoscapeStylesheet (.node d) ps "height" = some (.num 65)) ∧
    ((45 : ℚ) < 65 ∧
      ∀ d' : NodeData, d'.name ≠ .str "Infosys" →
        sheetValue cytoscapeStylesheet (.node d') ps "width" = some (.num 45) ∧
        sheetValue cytoscapeStylesheet (.node d') ps "height" = some (.num 45)) ∧
    (∀ (elements : List Element) (cb : Bool) (events : List Event) (i : Nat) (n : CyNode),
      (run (View.initial elements cb) events).cy.nodes[i]? = some n → n.data = d →
      ∃ n' : CyNode,
        (mouseout (run (View.initial elements cb) events) i).cy.nodes[i]? = some n' ∧
        n'.data = d ∧
        n'.style ps "background-color" = some (.color (.hex "#0066cc")) ∧
        n'.style ps "border-color" = some (.color (.hex "#3399ff")) ∧
        n'.style ps "width" = some (.num 65) ∧
        n'.style ps "height" = some (.num 65)) := by
  obtain ⟨hbg, hbc, hw, hh, -⟩ := sheetValue_anchor d ps h
  refine ⟨⟨hbg, rfl, hbc, rfl, hw, hh⟩, ⟨by norm_num, ?_⟩, ?_⟩
  · intro d' hd'
    obtain ⟨hw', hh', -⟩ := sheetValue_plain_size d' ps hd'
    exact ⟨hw', hh'⟩
  · intro elements cb events i n hn hd
    have hclean := run_no_background elements cb events i n hn
    refine ⟨{ n with bypass := Style.write (mouseoutNodeStyle n.data) n.bypass }, ?_, hd, ?_⟩
    · rw [mouseout_nodes _ i n hn, hn]
      simp
    · have hname : n.data.name = .str "Infosys" := by rw [hd]; exact h
      simp only [CyNode.style, styleOf, lookup_write, hd]
      simp only [← hd, mouseoutNodeStyle, hname, if_true, List.lookup, hclean]
      rw [hd]
      simp [hbg, INFOSYS_COLOR]

theorem anchor_encoding_witness :
    sheetValue cytoscapeStylesheet (.node ⟨.str "n0", .str "Infosys", .str "Product"⟩)
      ⟨false, false⟩ "background-color" = some (.color INFOSYS_COLOR.main) ∧
    sheetValue cytoscapeStylesheet (.node ⟨.str "n0", .str "Infosys", .str "Product"⟩)
      ⟨false, false⟩ "width" = some (.num 65) :=
  ⟨(anchor_encoding ⟨.str "n0", .str "Infosys", .str "Product"⟩ ⟨false, false⟩ rfl).1.1,
   (anchor_encoding ⟨.str "n0", .str "Infosys", .str "Product"⟩ ⟨false, false⟩ rfl).1.2.2.2.2.1⟩

/-! ## Nodes with an unrecognised label -/

theorem initial_node_bypass (elements : List Element) (cb : Bool) (i : Nat) (n : CyNode)
    (h : (View.initial elements cb).cy.nodes[i]? = some n) : n.bypass = [] := by
  simp only [View.initial, applyEdgeColors, Cy.ofElements, List.getElem?_map] at h
  cases hd : (List.filterMap Element.nodeData? elements)[i]? with
  | none => simp [hd] at h
  | some d =>
    simp only [hd, Option.map_some', Option.some.injEq] at h
    rw [← h]

theorem roundtrip_node (v : View) (i : Nat) (n : CyNode) (h : v.cy.nodes[i]? = some n) :
    (mouseout (mouseover v i) i).cy.nodes[i]? =
      some { n with
        bypass := Style.write (mouseoutNodeStyle n.data)
          (Style.write mouseoverNodeStyle n.bypass) } := by
  have h1 : (mouseover v i).cy.nodes[i]? =
      some { n with bypass := Style.write mouseoverNodeStyle n.bypass } := by
    rw [mouseover_nodes v i n h, h]
    simp
  rw [mouseout_nodes _ i _ h1, h1]
  simp

/-- C4 on the code. For a node that is not the anchor and whose label is not a key of
`NODE_COLORS`, the stylesheet sets neither a background colour nor a border colour, so at first
render the node does not show the Company palette; only after a hover has been undone does the
mouseout handler give it the Company border colour, and its background is still not set. -/
theorem unknown_label_first_render (d : NodeData) (ps : Pseudo)
    (h : d.name ≠ .str "Infosys") (hl : d.label.key ∉ NODE_COLORS.map Prod.fst) :
    (sheetValue cytoscapeStylesheet (.node d) ps "background-color" = none ∧
      sheetValue cytoscapeStylesheet (.node d) ps "border-color" = none) ∧
    (∀ (elements : List Element) (cb : Bool) (i : Nat) (n : CyNode),
      (View.initial elements cb).cy.nodes[i]? = some n → n.data = d →
      n.style ps "background-color" = none ∧
      n.style ps "border-color" = none ∧
      ∃ n' : CyNode,
        (mouseout (mouseover (View.initial elements cb) i) i).cy.nodes[i]? = some n' ∧
        n'.data = d ∧
        n'.style ps "border-color" = some (.color NODE_COLORS_Company.border) ∧
        NODE_COLORS_Company.border = .hex "#60a5fa" ∧
        n'.style ps "background-color" = none) := by
  obtain ⟨hbg, hbc⟩ := sheetValue_unknown_label d ps h hl
  refine ⟨⟨hbg, hbc⟩, ?_⟩
  intro elements cb i n hn hd
  have hb := initial_node_bypass elements cb i n hn
  have hname : n.data.name ≠ .str "Infosys" := by rw [hd]; exact h
  have hcol : nodeColorsAt n.data.label = none := by
    rw [hd]
    exact nodeColorsAt_eq_none _ hl
  refine ⟨?_, ?_, _, roundtrip_node _ i n hn, hd, ?_, rfl, ?_⟩
  · simp [CyNode.style, styleOf, hb, hd, hbg]
  · simp [CyNode.style, styleOf, hb, hd, hbc]
  · simp [CyNode.style, styleOf, lookup_write, mouseoutNodeStyle, hname, hcol, List.lookup]
  · simp [CyNode.style, styleOf, lookup_write, mouseoutNodeStyle, mouseoverNodeStyle, hb, hd,
      hbg, List.lookup]

theorem unknown_label_first_render_witness :
    sheetValue cytoscapeStylesheet (.node ⟨.str "n1", .str "Acme", .str ""⟩) ⟨false, false⟩
      "background-color" = none ∧
    sheetValue cytoscapeStylesheet (.node ⟨.str "n1", .str "Acme", .str ""⟩) ⟨false, false⟩
      "border-color" = none :=
  (unknown_label_first_render ⟨.str "n1", .str "Acme", .str ""⟩ ⟨false, false⟩
    (by decide) (by decide)).1

/-- C2 on the code. For the payload with the one node `{ id: "n1", name: "Acme", label: "" }`,
pointer-enter followed by pointer-leave on the node does not restore its style: before the hover
the node has no border colour of its own and none from the stylesheet, after it the border colour
is `#60a5fa`. Width, height and border width are restored. -/
theorem hover_roundtrip_changes_border :
    ((View.initial
        (buildElements (.object ⟨some [⟨.str "n1", .str "Acme", .str ""⟩], none⟩)) true
      ).cy.nodes.map (fun n =>
        (n.style ⟨false, false⟩ "border-color", n.style ⟨false, false⟩ "width",
         n.style ⟨false, false⟩ "height", n.style ⟨false, false⟩ "border-width"))) =
      [(none, some (.num 45), some (.num 45), some (.num 2))] ∧
    ((mouseout (mouseover (View.initial
        (buildElements (.object ⟨some [⟨.str "n1", .str "Acme", .str ""⟩], none⟩)) true) 0) 0
      ).cy.nodes.map (fun n =>
        (n.style ⟨false, false⟩ "border-color", n.style ⟨false, false⟩ "width",
         n.style ⟨false, false⟩ "height", n.style ⟨false, false⟩ "border-width"))) =
      [(some (.color (.hex "#60a5fa")), some (.num 45), some (.num 45), some (.num 2))] := by
  decide

/-! ## Edge colours -/

theorem edgeColorsAt_eq_none (rel : JSVal)
    (h : rel.key ∉ EDGE_COLORS.map Prod.fst) (hp : rel.key ∉ objectPrototypeKeys) :
    edgeColorsAt rel = none := by
  have hl : EDGE_COLORS.lookup rel.key = none := by
    rw [List.lookup_eq_none_iff]
    intro p hp
    simp only [bne_iff_ne, ne_eq]
    intro heq
    exact h (List.mem_map.2 ⟨p, hp, heq.symm⟩)
  simp [edgeColorsAt, hl, hp]

theorem edgeColorsAt_of_own (rel : JSVal) (c : Color)
    (h : EDGE_COLORS.lookup rel.key = some c) : edgeColorsAt rel = some (.color c) := by
  simp [edgeColorsAt, h]

theorem edgeColorsAt_of_inherited (rel : JSVal)
    (h : rel.key ∈ objectPrototypeKeys) : edgeColorsAt rel = some (.inherited rel.key) := by
  have hl : EDGE_COLORS.lookup rel.key = none := by
    rw [List.lookup_eq_none_iff]
    intro p hp
    simp only [EDGE_COLORS, List.mem_cons, List.mem_singleton, List.not_mem_nil,
      or_false] at hp
    simp only [objectPrototypeKeys, List.mem_cons, List.mem_singleton, List.not_mem_nil,
      or_false] at h
    rcases hp with rfl | rfl | rfl | rfl | rfl | rfl <;>
      rcases h with h | h | h | h | h | h | h | h | h | h | h | h <;> simp [h]
  simp [edgeColorsAt, hl, h]

theorem initial_edge_bypass (elements : List Element) (cb : Bool) (j : Nat) (e : CyEdge)
    (h : (View.initial elements cb).cy.edges[j]? = some e) :
    e.bypass =
      match edgeColorsAt e.data.relationship with
      | some c => Style.write [ ("line-color", c), ("target-arrow-color", c) ] []
      | none => [] := by
  simp only [View.initial, applyEdgeColors, Cy.ofElements, List.getElem?_map] at h
  cases hd : (List.filterMap Element.edgeData? elements)[j]? with
  | none => simp [hd] at h
  | some d =>
    simp only [hd, Option.map_some', Option.some.injEq] at h
    rw [← h]
    cases hc : edgeColorsAt d.relationship <;> simp [hc]

/-- After pointer-enter and pointer-leave on the node at index `i`, an edge keeps its data, and
either it was not touched, or its own style is what the two handlers wrote in turn. -/
theorem roundtrip_edge (v : View) (i j : Nat) (e : CyEdge) (h : v.cy.edges[j]? = some e) :
    ∃ e' : CyEdge, (mouseout (mouseover v i) i).cy.edges[j]? = some e' ∧ e'.data = e.data ∧
      (e' = e ∨ e'.bypass =
        Style.write (mouseoutEdgeStyle e.data) (Style.write mouseoverEdgeStyle e.bypass)) := by
  cases hi : v.cy.nodes[i]? with
  | none =>
    rw [mouseover_of_none v i hi, mouseout_of_none v i hi]
    exact ⟨e, h, rfl, Or.inl rfl⟩
  | some n =>
    have h1 : (mouseover v i).cy.nodes[i]? =
        some { n with bypass := Style.write mouseoverNodeStyle n.bypass } := by
      rw [mouseover_nodes v i n hi, hi]
      simp
    rw [mouseout_edges _ i _ h1, mouseover_edges v i n hi, h]
    by_cases hc : n.connects e = true
    · have hc' : CyNode.connects
          { n with bypass := Style.write mouseoverNodeStyle n.bypass }
          { e with bypass := Style.write mouseoverEdgeStyle e.bypass } = true := hc
      refine ⟨⟨e.data, Style.write (mouseoutEdgeStyle e.data)
        (Style.write mouseoverEdgeStyle e.bypass)⟩, ?_, rfl, Or.inr rfl⟩
      simp [hc, hc']
    · refine ⟨e, ?_, rfl, Or.inl rfl⟩
      simp only [Bool.not_eq_true] at hc
      have hc' : CyNode.connects
          { n with bypass := Style.write mouseoverNodeStyle n.bypass } e = false := hc
      simp [hc, hc']

/-- For every edge of the initial view: when its relationship is neither a key of `EDGE_COLORS`
nor the name of a member inherited from `Object.prototype`, its line colour is
`rgba(124, 58, 237, 0.3)` and its arrowhead colour is the same tone at the opacity `0.5`, with
`0.3 < 0.5`, at first render and again after pointer-enter and pointer-leave on any node (an
endpoint of the edge in particular); when its relationship has the entry `c` in `EDGE_COLORS`,
line and arrowhead both have the colour `c`, at first render and again after the hover has been
undone. -/
theorem edge_colours (elements : List Element) (cb : Bool) (j : Nat) (e : CyEdge) (ps : Pseudo)
    (h : (View.initial elements cb).cy.edges[j]? = some e) :
    (e.data.relationship.key ∉ EDGE_COLORS.map Prod.fst →
      e.data.relationship.key ∉ objectPrototypeKeys →
      (e.style ps "line-color" = some (.color (.rgba 124 58 237 0.3)) ∧
        e.style ps "target-arrow-color" = some (.color (.rgba 124 58 237 0.5)) ∧
        (0.3 : ℚ) < 0.5) ∧
      ∀ i : Nat, ∃ e' : CyEdge,
        (mouseout (mouseover (View.initial elements cb) i) i).cy.edges[j]? = some e' ∧
        e'.data = e.data ∧
        e'.style ps "line-color" = some (.color (.rgba 124 58 237 0.3)) ∧
        e'.style ps "target-arrow-color" = some (.color (.rgba 124 58 237 0.5))) ∧
    (∀ c : Color, EDGE_COLORS.lookup e.data.relationship.key = some c →
      (e.style ps "line-color" = some (.color c) ∧
        e.style ps "target-arrow-color" = some (.color c)) ∧
      ∀ i : Nat, ∃ e' : CyEdge,
        (mouseout (mouseover (View.initial elements cb) i) i).cy.edges[j]? = some e' ∧
        e'.data = e.data ∧
        e'.style ps "line-color" = some (.color c) ∧
        e'.style ps "target-arrow-color" = some (.color c)) := by
  have hb := initial_edge_bypass elements cb j e h
  obtain ⟨-, hline, harrow⟩ := sheetValue_edge e.data ps
  constructor
  · intro hrel hproto
    have hnone := edgeColorsAt_eq_none _ hrel hproto
    rw [hnone] at hb
    have h0 : e.style ps "line-color" = some (.color (.rgba 124 58 237 0.3)) ∧
        e.style ps "target-arrow-color" = some (.color (.rgba 124 58 237 0.5)) := by
      simp [CyEdge.style, styleOf, hb, hline, harrow]
    refine ⟨⟨h0.1, h0.2, by norm_num⟩, ?_⟩
    intro i
    obtain ⟨e', he', hdata, hcase⟩ := roundtrip_edge (View.initial elements cb) i j e h
    refine ⟨e', he', hdata, ?_⟩
    rcases hcase with rfl | hby
    · exact h0
    · simp [CyEdge.style, styleOf, hby, lookup_write, mouseoutEdgeStyle, hnone, List.lookup]
  · intro c hc
    have hsome := edgeColorsAt_of_own e.data.relationship c hc
    rw [hsome] at hb
    have h0 : e.style ps "line-color" = some (.color c) ∧
        e.style ps "target-arrow-color" = some (.color c) := by
      simp [CyEdge.style, styleOf, hb, lookup_write, List.lookup]
    refine ⟨h0, ?_⟩
    intro i
    obtain ⟨e', he', hdata, hcase⟩ := roundtrip_edge (View.initial elements cb) i j e h
    refine ⟨e', he', hdata, ?_⟩
    rcases hcase with rfl | hby
    · exact h0
    · simp [CyEdge.style, styleOf, hby, lookup_write, mouseoutEdgeStyle, hsome, List.lookup]

/-- C5 on the code. An edge whose relationship is "constructor" is not one of the six keys of
`EDGE_COLORS`, yet it does not get the fallback colours: `EDGE_COLORS["constructor"]` is the
function that the table inherits from `Object.prototype`, which is truthy, so the colouring loop
writes that function as the line colour and the arrowhead colour at first render, and the style
object that the mouseout handler builds for the edge carries it again, not the fallback. An edge
with the relationship "UNKNOWN_TYPE" does get the two fallback colours. -/
theorem edge_colour_inherited_key :
    "constructor" ∉ EDGE_COLORS.map Prod.fst ∧
    (View.initial (buildElements (.object
        ⟨some [⟨.str "a", .str "A", .str "Company"⟩, ⟨.str "b", .str "B", .str "Product"⟩],
         some [⟨.str "a", .str "b", .str "constructor"⟩,
               ⟨.str "a", .str "b", .str "UNKNOWN_TYPE"⟩]⟩)) true).cy.edges.map
        (fun e => (e.style ⟨false, false⟩ "line-color",
          e.style ⟨false, false⟩ "target-arrow-color")) =
      [(some (.inherited "constructor"), some (.inherited "constructor")),
       (some (.color (.rgba 124 58 237 0.3)), some (.color (.rgba 124 58 237 0.5)))] ∧
    mouseoutEdgeStyle ⟨"e0", .str "a", .str "b", .str "constructor"⟩ =
      [ ("width", .num 1.5), ("line-color", .inherited "constructor"),
        ("target-arrow-color", .inherited "constructor") ] ∧
    mouseoutEdgeStyle ⟨"e1", .str "a", .str "b", .str "UNKNOWN_TYPE"⟩ =
      [ ("width", .num 1.5), ("line-color", .color (.rgba 124 58 237 0.3)),
        ("target-arrow-color", .color (.rgba 124 58 237 0.5)) ] :=
  ⟨by decide, rfl, rfl, rfl⟩

/-! ## Where the hover round trip does restore the style -/

theorem lookup_four (a b c d : String) (va vb vc vd : StyleValue) (k : String)
    (ha : k ≠ a) (hb : k ≠ b) (hc : k ≠ c) (hd : k ≠ d) :
    List.lookup k [(a, va), (b, vb), (c, vc), (d, vd)] = none := by
  rw [List.lookup_eq_none_iff]
  intro p hp
  simp only [List.mem_cons, List.mem_singleton, List.not_mem_nil, or_false] at hp
  rcases hp with rfl | rfl | rfl | rfl <;> simpa

theorem lookup_three (a b c : String) (va vb vc : StyleValue) (k : String)
    (ha : k ≠ a) (hb : k ≠ b) (hc : k ≠ c) :
    List.lookup k [(a, va), (b, vb), (c, vc)] = none := by
  rw [List.lookup_eq_none_iff]
  intro p hp
  simp only [List.mem_cons, List.mem_singleton, List.not_mem_nil, or_false] at hp
  rcases hp with rfl | rfl | rfl <;> simpa

/-- For the anchor node and for a node whose label is a key of `NODE_COLORS`, pointer-enter
followed by pointer-leave on the node gives back, for every style property, the style the node
showed in the initial view. -/
theorem hover_roundtrip_restores_node (elements : List Element) (cb : Bool) (i : Nat)
    (n : CyNode) (ps : Pseudo) (h : (View.initial elements cb).cy.nodes[i]? = some n)
    (hok : n.data.name = .str "Infosys" ∨
      (∃ s : String, ∃ colors : Palette,
        n.data.label = .str s ∧ NODE_COLORS.lookup s = some colors)) :
    ∃ n' : CyNode,
      (mouseout (mouseover (View.initial elements cb) i) i).cy.nodes[i]? = some n' ∧
      n'.data = n.data ∧ ∀ prop : String, n'.style ps prop = n.style ps prop := by
  have hb := initial_node_bypass elements cb i n h
  refine ⟨_, roundtrip_node _ i n h, rfl, ?_⟩
  intro prop
  simp only [CyNode.style, styleOf, lookup_write, hb, List.lookup_nil]
  by_cases hanchor : n.data.name = .str "Infosys"
  · obtain ⟨-, hbc, hw, hh, hbw⟩ := sheetValue_anchor n.data ps hanchor
    by_cases h1 : prop = "width"
    · subst h1
      simp [mouseoutNodeStyle, hanchor, List.lookup, hw]
    by_cases h2 : prop = "height"
    · subst h2
      simp [mouseoutNodeStyle, hanchor, List.lookup, hh]
    by_cases h3 : prop = "border-width"
    · subst h3
      simp [mouseoutNodeStyle, hanchor, List.lookup, hbw]
    by_cases h4 : prop = "border-color"
    · subst h4
      simp [mouseoutNodeStyle, hanchor, List.lookup, hbc, INFOSYS_COLOR]
    · have e1 : List.lookup prop (mouseoutNodeStyle n.data) = none :=
        lookup_four _ _ _ _ _ _ _ _ prop h1 h2 h3 h4
      have e2 : List.lookup prop mouseoverNodeStyle = none :=
        lookup_four _ _ _ _ _ _ _ _ prop h1 h2 h3 h4
      simp [e1, e2]
  · rcases hok with hname | ⟨s, colors, hl, hc⟩
    · exact absurd hname hanchor
    · obtain ⟨hw, hh, hbw⟩ := sheetValue_plain_size n.data ps hanchor
      obtain ⟨-, hbc⟩ := sheetValue_known_label n.data ps hanchor s colors hl hc
      have hat : nodeColorsAt n.data.label = some colors := by
        rw [hl]
        exact hc
      by_cases h1 : prop = "width"
      · subst h1
        simp [mouseoutNodeStyle, hanchor, List.lookup, hw]
      by_cases h2 : prop = "height"
      · subst h2
        simp [mouseoutNodeStyle, hanchor, List.lookup, hh]
      by_cases h3 : prop = "border-width"
      · subst h3
        simp [mouseoutNodeStyle, hanchor, List.lookup, hbw]
      by_cases h4 : prop = "border-color"
      · subst h4
        simp [mouseoutNodeStyle, hanchor, List.lookup, hbc, hat]
      · have e1 : List.lookup prop (mouseoutNodeStyle n.data) = none :=
          lookup_four _ _ _ _ _ _ _ _ prop h1 h2 h3 h4
        have e2 : List.lookup prop mouseoverNodeStyle = none :=
          lookup_four _ _ _ _ _ _ _ _ prop h1 h2 h3 h4
        simp [e1, e2]

/-- For every edge, whatever its relationship, pointer-enter followed by pointer-leave on any
node gives back, for every style property, the style the edge showed in the initial view. -/
theorem hover_roundtrip_restores_edge (elements : List Element) (cb : Bool) (i j : Nat)
    (e : CyEdge) (ps : Pseudo) (h : (View.initial elements cb).cy.edges[j]? = some e) :
    ∃ e' : CyEdge,
      (mouseout (mouseover (View.initial elements cb) i) i).cy.edges[j]? = some e' ∧
      e'.data = e.data ∧ ∀ prop : String, e'.style ps prop = e.style ps prop := by
  have hb := initial_edge_bypass elements cb j e h
  obtain ⟨hw, hline, harrow⟩ := sheetValue_edge e.data ps
  obtain ⟨e', he', hdata, hcase⟩ := roundtrip_edge (View.initial elements cb) i j e h
  refine ⟨e', he', hdata, ?_⟩
  intro prop
  rcases hcase with rfl | hby
  · rfl
  · simp only [CyEdge.style, styleOf, hby, hdata, lookup_write]
    cases hc : edgeColorsAt e.data.relationship with
    | none =>
      rw [hc] at hb
      by_cases h1 : prop = "width"
      · subst h1
        simp [mouseoutEdgeStyle, List.lookup, hb, hw]
      by_cases h2 : prop = "line-color"
      · subst h2
        simp [mouseoutEdgeStyle, List.lookup, hb, hline, hc]
      by_cases h3 : prop = "target-arrow-color"
      · subst h3
        simp [mouseoutEdgeStyle, List.lookup, hb, harrow, hc]
      · have e1 : List.lookup prop (mouseoutEdgeStyle e.data) = none :=
          lookup_three _ _ _ _ _ _ prop h1 h2 h3
        have e2 : List.lookup prop mouseoverEdgeStyle = none :=
          lookup_three _ _ _ _ _ _ prop h1 h2 h3
        simp [e1, e2]
    | some c =>
      rw [hc] at hb
      by_cases h1 : prop = "width"
      · subst h1
        simp [mouseoutEdgeStyle, List.lookup, hb, hw, lookup_write]
      by_cases h2 : prop = "line-color"
      · subst h2
        simp [mouseoutEdgeStyle, List.lookup, hb, hc, lookup_write]
      by_cases h3 : prop = "target-arrow-color"
      · subst h3
        simp [mouseoutEdgeStyle, List.lookup, hb, hc, lookup_write]
      · have e1 : List.lookup prop (mouseoutEdgeStyle e.data) = none :=
          lookup_three _ _ _ _ _ _ prop h1 h2 h3
        have e2 : List.lookup prop mouseoverEdgeStyle = none :=
          lookup_three _ _ _ _ _ _ prop h1 h2 h3
        simp [e1, e2]

/-! ## What the handlers leave alone -/

theorem run_snoc (v : View) (events : List Event) (e : Event) :
    run v (events ++ [e]) = step (run v events) e := by
  simp [run, List.foldl_append]

theorem step_nodes_ne (v : View) (ev : Event) (k : Nat) (h : k ≠ ev.target) :
    (step v ev).cy.nodes[k]? = v.cy.nodes[k]? := by
  cases ev with
  | tap i => simp only [step, tap_cy]
  | mouseover i =>
    simp only [step]
    cases hi : v.cy.nodes[i]? with
    | none => rw [mouseover_of_none v i hi]
    | some node =>
      have hik : ¬ i = k := fun h' => h h'.symm
      rw [mouseover_nodes v i node hi]
      cases hk : v.cy.nodes[k]? <;> simp [hik]
  | mouseout i =>
    simp only [step]
    cases hi : v.cy.nodes[i]? with
    | none => rw [mouseout_of_none v i hi]
    | some node =>
      have hik : ¬ i = k := fun h' => h h'.symm
      rw [mouseout_nodes v i node hi]
      cases hk : v.cy.nodes[k]? <;> simp [hik]

/-- A handler changes nothing of a node but the style written on it: data, position and
grabbability stay. -/
theorem step_nodes_frame (v : View) (ev : Event) (k : Nat) :
    ((step v ev).cy.nodes[k]?).map (fun n => (n.data, n.position, n.grabbable)) =
      (v.cy.nodes[k]?).map (fun n => (n.data, n.position, n.grabbable)) := by
  cases ev with
  | tap i => simp only [step, tap_cy]
  | mouseover i =>
    simp only [step]
    cases hi : v.cy.nodes[i]? with
    | none => rw [mouseover_of_none v i hi]
    | some node =>
      rw [mouseover_nodes v i node hi]
      cases hk : v.cy.nodes[k]? with
      | none => rfl
      | some m => by_cases hik : i = k <;> simp [hik]
  | mouseout i =>
    simp only [step]
    cases hi : v.cy.nodes[i]? with
    | none => rw [mouseout_of_none v i hi]
    | some node =>
      rw [mouseout_nodes v i node hi]
      cases hk : v.cy.nodes[k]? with
      | none => rfl
      | some m => by_cases hik : i = k <;> simp [hik]

theorem step_edges_untouched (v : View) (ev : Event) (j : Nat) (e : CyEdge) (n : CyNode)
    (hn : v.cy.nodes[ev.target]? = some n) (he : v.cy.edges[j]? = some e)
    (hc : n.connects e = false) : (step v ev).cy.edges[j]? = some e := by
  cases ev with
  | tap i => simp only [step, tap_cy, he]
  | mouseover i =>
    simp only [step]
    rw [mouseover_edges v i n hn, he]
    simp [hc]
  | mouseout i =>
    simp only [step]
    rw [mouseout_edges v i n hn, he]
    simp [hc]

theorem step_surface_switches (v : View) (ev : Event) :
    (step v ev).cy.autolock = v.cy.autolock ∧ (step v ev).cy.layoutRuns = v.cy.layoutRuns ∧
    (step v ev).hasOnNodeClick = v.hasOnNodeClick := by
  cases ev with
  | tap i =>
    simp only [step, tap_cy]
    refine ⟨trivial, trivial, ?_⟩
    unfold tap
    split
    · rfl
    · split <;> rfl
  | mouseover i =>
    simp only [step, mouseover]
    split <;> exact ⟨rfl, rfl, rfl⟩
  | mouseout i =>
    simp only [step, mouseout]
    split <;> exact ⟨rfl, rfl, rfl⟩

/-- C18. For every pointer-enter, pointer-leave or click on a node: the position of every node
is unchanged; every node other than the event's node is unchanged, style included; and every
edge that does not touch the event's node is unchanged, style included. -/
theorem pointer_event_frame (v : View) (ev : Event) :
    (∀ k : Nat, ((step v ev).cy.nodes[k]?).map CyNode.position =
      (v.cy.nodes[k]?).map CyNode.position) ∧
    (∀ k : Nat, k ≠ ev.target →
      (step v ev).cy.nodes[k]? = v.cy.nodes[k]? ∧
      ∀ (ps : Pseudo) (prop : String),
        ((step v ev).cy.nodes[k]?).map (fun n => n.style ps prop) =
          (v.cy.nodes[k]?).map (fun n => n.style ps prop)) ∧
    (∀ (j : Nat) (e : CyEdge) (n : CyNode),
      v.cy.nodes[ev.target]? = some n → v.cy.edges[j]? = some e → n.connects e = false →
      (step v ev).cy.edges[j]? = some e) := by
  refine ⟨?_, ?_, ?_⟩
  · intro k
    have h := congrArg (Option.map (fun t : NodeData × (ℚ × ℚ) × Bool => t.2.1))
      (step_nodes_frame v ev k)
    simpa [Option.map_map, Function.comp_def] using h
  · intro k hk
    have h := step_nodes_ne v ev k hk
    exact ⟨h, fun ps prop => by rw [h]⟩
  · intro j e n hn he hc
    exact step_edges_untouched v ev j e n hn he hc

/-- C14. For every view and every node, a click on the node leaves the focus as it is and the
surface as it is, and so the style of every node and of every edge. -/
theorem tap_keeps_interaction_state (v : View) (i : Nat) :
    (tap v i).hoveredNode = v.hoveredNode ∧
    (tap v i).cy = v.cy ∧
    (∀ (k : Nat) (ps : Pseudo) (prop : String),
      ((tap v i).cy.nodes[k]?).map (fun n => n.style ps prop) =
        (v.cy.nodes[k]?).map (fun n => n.style ps prop)) ∧
    (∀ (j : Nat) (ps : Pseudo) (prop : String),
      ((tap v i).cy.edges[j]?).map (fun e => e.style ps prop) =
        (v.cy.edges[j]?).map (fun e => e.style ps prop)) := by
  have hcy : (tap v i).cy = v.cy := by
    unfold tap
    split
    · rfl
    · split <;> rfl
  refine ⟨?_, hcy, ?_, ?_⟩
  · unfold tap
    split
    · rfl
    · split <;> rfl
  · intro k ps prop
    rw [hcy]
  · intro j ps prop
    rw [hcy]

/-! ## The view after the setup, and what a run of events keeps -/

theorem handleCyReady_eq (layout : LayoutOptions → Cy → Nat → ℚ × ℚ) (cy : Cy) :
    handleCyReady layout cy =
      { nodes := ((applyEdgeColors cy).nodes.mapIdx
          (fun k n => { n with
            position := if (applyEdgeColors cy).autolock then n.position
              else layout layoutOptions (applyEdgeColors cy) k })).map
          (fun n => { n with grabbable := false })
        edges := (applyEdgeColors cy).edges
        autolock := true
        layoutRuns := cy.layoutRuns ++ [layoutOptions] } := by
  rfl

theorem ready_nodes (layout : LayoutOptions → Cy → Nat → ℚ × ℚ) (elements : List Element)
    (cb : Bool) (k : Nat) :
    (View.ready layout elements cb).cy.nodes[k]? =
      ((renderNodes elements)[k]?).map (fun d =>
        { data := d, bypass := []
          position := layout layoutOptions (applyEdgeColors (Cy.ofElements elements)) k
          grabbable := false }) := by
  simp only [View.ready, handleCyReady_eq, List.getElem?_map, List.getElem?_mapIdx,
    applyEdgeColors, Cy.ofElements, renderNodes]
  cases (List.filterMap Element.nodeData? elements)[k]? <;> rfl

theorem ready_edges (layout : LayoutOptions → Cy → Nat → ℚ × ℚ) (elements : List Element)
    (cb : Bool) :
    (View.ready layout elements cb).cy.edges = (View.initial elements cb).cy.edges := rfl

theorem run_nodes_frame (v : View) (events : List Event) (k : Nat) :
    ((run v events).cy.nodes[k]?).map (fun n => (n.data, n.position, n.grabbable)) =
      (v.cy.nodes[k]?).map (fun n => (n.data, n.position, n.grabbable)) := by
  induction events using List.reverseRecOn with
  | nil => rfl
  | append_singleton events e ih => rw [run_snoc, step_nodes_frame, ih]

theorem run_surface_switches (v : View) (events : List Event) :
    (run v events).cy.autolock = v.cy.autolock ∧
    (run v events).cy.layoutRuns = v.cy.layoutRuns ∧
    (run v events).hasOnNodeClick = v.hasOnNodeClick := by
  induction events using List.reverseRecOn with
  | nil => exact ⟨rfl, rfl, rfl⟩
  | append_singleton events e ih =>
    rw [run_snoc]
    obtain ⟨h1, h2, h3⟩ := step_surface_switches (run v events) e
    exact ⟨h1.trans ih.1, h2.trans ih.2.1, h3.trans ih.2.2⟩

/-- In every view reached from the one the setup leaves, the node at an index has the data of
the render node at that index. -/
theorem run_ready_node_data (layout : LayoutOptions → Cy → Nat → ℚ × ℚ)
    (elements : List Element) (cb : Bool) (events : List Event) (k : Nat) :
    ((run (View.ready layout elements cb) events).cy.nodes[k]?).map CyNode.data =
      (renderNodes elements)[k]? := by
  have h := congrArg (Option.map (fun t : NodeData × (ℚ × ℚ) × Bool => t.1))
    (run_nodes_frame (View.ready layout elements cb) events k)
  simp only [Option.map_map, Function.comp_def] at h
  rw [ready_nodes] at h
  simp only [Option.map_map, Function.comp_def] at h
  have h2 : (fun n : CyNode => n.data) = CyNode.data := rfl
  rw [h2] at h
  rw [h]
  cases (renderNodes elements)[k]? <;> rfl

theorem ready_locked (layout : LayoutOptions → Cy → Nat → ℚ × ℚ) (elements : List Element)
    (cb : Bool) (events : List Event) (n : CyNode)
    (h : n ∈ (run (View.ready layout elements cb) events).cy.nodes) : n.grabbable = false := by
  obtain ⟨k, hk⟩ := List.mem_iff_getElem?.1 h
  have hf := run_nodes_frame (View.ready layout elements cb) events k
  rw [hk, ready_nodes] at hf
  cases hd : (renderNodes elements)[k]? with
  | none => simp [hd] at hf
  | some d =>
    simp only [hd, Option.map_some', Option.some.injEq, Prod.mk.injEq] at hf
    exact hf.2.2

/-! ## The setup runs again with every render -/

theorem iterate_step_surface (e : Event) (n : Nat) (v : View) :
    (Nat.iterate (fun v => step v e) n v).cy.autolock = v.cy.autolock ∧
    (Nat.iterate (fun v => step v e) n v).cy.layoutRuns = v.cy.layoutRuns ∧
    (Nat.iterate (fun v => step v e) n v).hasOnNodeClick = v.hasOnNodeClick := by
  induction n generalizing v with
  | zero => exact ⟨rfl, rfl, rfl⟩
  | succ n ih =>
    obtain ⟨h1, h2, h3⟩ := ih (step v e)
    obtain ⟨k1, k2, k3⟩ := step_surface_switches v e
    exact ⟨h1.trans k1, h2.trans k2, h3.trans k3⟩

theorem run_mounted_snoc (layout : LayoutOptions → Cy → Nat → ℚ × ℚ) (m : Mounted)
    (events : List Event) (e : Event) :
    Mounted.run layout m (events ++ [e]) =
      Mounted.dispatch layout (Mounted.run layout m events) e := by
  simp [Mounted.run, List.foldl_append]

theorem commit_surface (layout : LayoutOptions → Cy → Nat → ℚ × ℚ) (m : Mounted) :
    (Mounted.commit layout m).view.cy.layoutRuns = m.view.cy.layoutRuns ++ [layoutOptions] ∧
    (Mounted.commit layout m).view.cy.autolock = true ∧
    (Mounted.commit layout m).setups = m.setups + 1 :=
  ⟨rfl, rfl, rfl⟩

/-- On the mounted component there is one layout run for every run of `handleCyReady`, the
first one when the component is mounted and one more for every render after it; the surface is
locked all along. -/
theorem mounted_layout_runs (layout : LayoutOptions → Cy → Nat → ℚ × ℚ) (graphData : Payload)
    (cb : Bool) (events : List Event) :
    (Mounted.run layout (Mounted.mount layout graphData cb) events).view.cy.layoutRuns =
      List.replicate (Mounted.run layout (Mounted.mount layout graphData cb) events).setups
        layoutOptions ∧
    (Mounted.run layout (Mounted.mount layout graphData cb) events).view.cy.autolock = true ∧
    1 ≤ (Mounted.run layout (Mounted.mount layout graphData cb) events).setups := by
  induction events using List.reverseRecOn with
  | nil => exact ⟨rfl, rfl, Nat.le_refl 1⟩
  | append_singleton events e ih =>
    rw [run_mounted_snoc]
    generalize Mounted.run layout (Mounted.mount layout graphData cb) events = m at ih
    obtain ⟨hruns, hlock, hpos⟩ := ih
    obtain ⟨k1, k2, -⟩ := iterate_step_surface e m.setups m.view
    unfold Mounted.dispatch
    simp only
    split
    · exact ⟨k2.trans hruns, k1.trans hlock, hpos⟩
    · obtain ⟨c1, c2, c3⟩ := commit_surface layout
        { m with view := Nat.iterate (fun v => step v e) m.setups m.view }
      refine ⟨?_, c2, ?_⟩
      · rw [c1, c3]
        show (Nat.iterate (fun v => step v e) m.setups m.view).cy.layoutRuns ++ [layoutOptions] =
          List.replicate (m.setups + 1) layoutOptions
        rw [k2, hruns, List.replicate_succ']
      · rw [c3]
        exact Nat.le_succ_of_le hpos

theorem iterate_step_positions (e : Event) (n : Nat) (v : View) (k : Nat) :
    ((Nat.iterate (fun v => step v e) n v).cy.nodes[k]?).map CyNode.position =
      (v.cy.nodes[k]?).map CyNode.position := by
  induction n generalizing v with
  | zero => rfl
  | succ n ih =>
    have h := congrArg (Option.map (fun t : NodeData × (ℚ × ℚ) × Bool => t.2.1))
      (step_nodes_frame v e k)
    simp only [Option.map_map, Function.comp_def] at h
    exact (ih (step v e)).trans h

theorem handleCyReady_locked_positions (layout : LayoutOptions → Cy → Nat → ℚ × ℚ) (cy : Cy)
    (h : cy.autolock = true) (k : Nat) :
    ((handleCyReady layout cy).nodes[k]?).map CyNode.position =
      (cy.nodes[k]?).map CyNode.position := by
  have ha : (applyEdgeColors cy).autolock = true := h
  have hn : (applyEdgeColors cy).nodes = cy.nodes := rfl
  simp only [handleCyReady_eq, List.getElem?_map, List.getElem?_mapIdx, ha, hn, if_true,
    Option.map_map]
  cases cy.nodes[k]? <;> rfl

/-- On the mounted component no node moves after the mount: the later layout runs find the
surface locked, and the handlers write no position. -/
theorem mounted_positions (layout : LayoutOptions → Cy → Nat → ℚ × ℚ) (graphData : Payload)
    (cb : Bool) (events : List Event) (k : Nat) :
    ((Mounted.run layout (Mounted.mount layout graphData cb) events).view.cy.nodes[k]?).map
        CyNode.position =
      ((Mounted.mount layout graphData cb).view.cy.nodes[k]?).map CyNode.position := by
  induction events using List.reverseRecOn with
  | nil => rfl
  | append_singleton events e ih =>
    have hlock := (mounted_layout_runs layout graphData cb events).2.1
    rw [run_mounted_snoc]
    generalize Mounted.run layout (Mounted.mount layout graphData cb) events = m at ih hlock
    have hit := iterate_step_positions e m.setups m.view k
    have hauto := (iterate_step_surface e m.setups m.view).1
    unfold Mounted.dispatch
    simp only
    split
    · exact hit.trans ih
    · have hc := handleCyReady_locked_positions layout
        (Nat.iterate (fun v => step v e) m.setups m.view).cy (hauto.trans hlock) k
      exact (hc.trans hit).trans ih

/-- C19 on the code. With the component mounted on two nodes, one layout has run, with
animation and randomisation off, gravity 0 and at most 1000 iterations, and the surface is
locked; after pointer-enter and pointer-leave on a node, `handleCyReady` has run three times on
the surface and the layout three times: each of the two events changes `hoveredNode`, the
component renders again, and the setup, the layout run included, runs again. -/
theorem layout_runs_again_after_hover :
    ((Mounted.mount (fun _ _ _ => (0, 0)) (.object
        ⟨some [⟨.str "a", .str "A", .str "Company"⟩, ⟨.str "b", .str "B", .str "Product"⟩],
         none⟩) true).view.cy.layoutRuns = [layoutOptions] ∧
      layoutOptions.animate = false ∧ layoutOptions.randomize = false ∧
      layoutOptions.gravity = 0 ∧ layoutOptions.numIter = 1000 ∧
      (Mounted.mount (fun _ _ _ => (0, 0)) (.object
        ⟨some [⟨.str "a", .str "A", .str "Company"⟩, ⟨.str "b", .str "B", .str "Product"⟩],
         none⟩) true).view.cy.autolock = true) ∧
    (Mounted.run (fun _ _ _ => (0, 0)) (Mounted.mount (fun _ _ _ => (0, 0)) (.object
        ⟨some [⟨.str "a", .str "A", .str "Company"⟩, ⟨.str "b", .str "B", .str "Product"⟩],
         none⟩) true) [.mouseover 0, .mouseout 0]).setups = 3 ∧
    (Mounted.run (fun _ _ _ => (0, 0)) (Mounted.mount (fun _ _ _ => (0, 0)) (.object
        ⟨some [⟨.str "a", .str "A", .str "Company"⟩, ⟨.str "b", .str "B", .str "Product"⟩],
         none⟩) true) [.mouseover 0, .mouseout 0]).view.cy.layoutRuns =
      [layoutOptions, layoutOptions, layoutOptions] :=
  ⟨⟨rfl, rfl, rfl, rfl, rfl, rfl⟩, rfl, rfl⟩

/-! ## The focus -/

theorem tap_hoveredNode (v : View) (i : Nat) : (tap v i).hoveredNode = v.hoveredNode := by
  unfold tap
  split
  · rfl
  · split <;> rfl

theorem mouseover_hoveredNode (v : View) (i : Nat) (n : CyNode) (h : v.cy.nodes[i]? = some n) :
    (mouseover v i).hoveredNode = some n.data := by
  simp [mouseover, h]

theorem mouseout_hoveredNode (v : View) (i : Nat) (n : CyNode) (h : v.cy.nodes[i]? = some n) :
    (mouseout v i).hoveredNode = none := by
  simp [mouseout, h]

theorem run_ready_node_exists (layout : LayoutOptions → Cy → Nat → ℚ × ℚ)
    (elements : List Element) (cb : Bool) (events : List Event) (k : Nat) (d : NodeData)
    (h : (renderNodes elements)[k]? = some d) :
    ∃ n : CyNode, (run (View.ready layout elements cb) events).cy.nodes[k]? = some n ∧
      n.data = d := by
  have hd := run_ready_node_data layout elements cb events k
  rw [h] at hd
  cases hn : (run (View.ready layout elements cb) events).cy.nodes[k]? with
  | none => simp [hn] at hd
  | some n =>
    refine ⟨n, rfl, ?_⟩
    simpa [hn] using hd

theorem entersNotLeft_cons_mouseover (i : Nat) (rest : List Event) :
    entersNotLeft (.mouseover i :: rest) =
      if rest.any Event.isLeave then entersNotLeft rest else i :: entersNotLeft rest := rfl

theorem any_isLeave_snoc (events : List Event) (e : Event) :
    (events ++ [e]).any Event.isLeave = (events.any Event.isLeave || e.isLeave) := by
  rw [List.any_append]
  simp

theorem entersNotLeft_snoc_mouseover (events : List Event) (i : Nat) :
    entersNotLeft (events ++ [.mouseover i]) = entersNotLeft events ++ [i] := by
  induction events with
  | nil => rfl
  | cons e events ih =>
    cases e with
    | mouseover k =>
      rw [List.cons_append, entersNotLeft_cons_mouseover, entersNotLeft_cons_mouseover,
        any_isLeave_snoc, ih]
      cases events.any Event.isLeave <;> simp [Event.isLeave]
    | mouseout k => exact ih
    | tap k => exact ih

theorem entersNotLeft_snoc_mouseout (events : List Event) (i : Nat) :
    entersNotLeft (events ++ [.mouseout i]) = [] := by
  induction events with
  | nil => rfl
  | cons e events ih =>
    cases e with
    | mouseover k =>
      rw [List.cons_append, entersNotLeft_cons_mouseover, any_isLeave_snoc, ih]
      simp [Event.isLeave]
    | mouseout k => exact ih
    | tap k => exact ih

theorem entersNotLeft_snoc_tap (events : List Event) (i : Nat) :
    entersNotLeft (events ++ [.tap i]) = entersNotLeft events := by
  induction events with
  | nil => rfl
  | cons e events ih =>
    cases e with
    | mouseover k =>
      rw [List.cons_append, entersNotLeft_cons_mouseover, entersNotLeft_cons_mouseover,
        any_isLeave_snoc, ih]
      simp [Event.isLeave]
    | mouseout k => exact ih
    | tap k => exact ih

theorem getLast?_entersNotLeft (events : List Event) :
    (entersNotLeft events).getLast? = lastEnter events.reverse := by
  induction events using List.reverseRecOn with
  | nil => rfl
  | append_singleton events e ih =>
    cases e with
    | mouseover i => simp [entersNotLeft_snoc_mouseover, lastEnter]
    | mouseout i => simp [entersNotLeft_snoc_mouseout, lastEnter]
    | tap i => simp [entersNotLeft_snoc_tap, lastEnter, ih]

theorem expectedFocus_eq (nodes : List NodeData) (events : List Event) :
    expectedFocus nodes events =
      match lastEnter events.reverse with
      | none => none
      | some i => nodes[i]? := by
  rw [expectedFocus, getLast?_entersNotLeft]

/-- C12. In every view reached from the one the setup leaves by pointer-enter, pointer-leave and
click events on nodes of the surface, the focus `hoveredNode` is the one the specification
expects: the data of the node of the most recent pointer-enter that no pointer-leave follows, and
none when there is no such pointer-enter. So the focus is none or the data of one node. -/
theorem focus_is_last_enter (layout : LayoutOptions → Cy → Nat → ℚ × ℚ)
    (elements : List Element) (cb : Bool) (events : List Event)
    (h : ∀ e ∈ events, e.target < (renderNodes elements).length) :
    (run (View.ready layout elements cb) events).hoveredNode =
      expectedFocus (renderNodes elements) events ∧
    ((run (View.ready layout elements cb) events).hoveredNode = none ∨
      ∃ (i : Nat) (d : NodeData), (renderNodes elements)[i]? = some d ∧
        (run (View.ready layout elements cb) events).hoveredNode = some d) := by
  have key : (run (View.ready layout elements cb) events).hoveredNode =
      expectedFocus (renderNodes elements) events := by
    induction events using List.reverseRecOn with
    | nil => rfl
    | append_singleton events e ih =>
      have hprev := ih (fun e' he' => h e' (List.mem_append_left _ he'))
      have hlt : e.target < (renderNodes elements).length :=
        h e (List.mem_append_right _ (List.mem_singleton.2 rfl))
      have hd : (renderNodes elements)[e.target]? = some (renderNodes elements)[e.target] :=
        List.getElem?_eq_getElem hlt
      obtain ⟨n, hn, hnd⟩ := run_ready_node_exists layout elements cb events e.target _ hd
      rw [run_snoc]
      cases e with
      | mouseover i =>
        simp only [step, expectedFocus_eq, List.reverse_append, List.reverse_cons,
          List.reverse_nil, List.nil_append, List.singleton_append, lastEnter]
        rw [mouseover_hoveredNode _ i n hn, hnd]
        exact hd.symm
      | mouseout i =>
        simp only [step, expectedFocus_eq, List.reverse_append, List.reverse_cons,
          List.reverse_nil, List.nil_append, List.singleton_append, lastEnter]
        exact mouseout_hoveredNode _ i n hn
      | tap i =>
        simp only [step, expectedFocus_eq, List.reverse_append, List.reverse_cons,
          List.reverse_nil, List.nil_append, List.singleton_append, lastEnter]
        rw [tap_hoveredNode, hprev, expectedFocus_eq]
  refine ⟨key, ?_⟩
  rw [key, expectedFocus_eq]
  cases hl : lastEnter events.reverse with
  | none => exact Or.inl rfl
  | some i =>
    cases hi : (renderNodes elements)[i]? with
    | none => exact Or.inl (by simp [hi])
    | some d => exact Or.inr ⟨i, d, hi, by simp [hi]⟩

theorem focus_is_last_enter_witness :
    (run (View.ready (fun _ _ _ => (0, 0))
        (buildElements (.object
          ⟨some [⟨.str "a", .str "A", .str "Company"⟩, ⟨.str "b", .str "B", .str "Product"⟩],
           none⟩)) true)
      [.mouseover 0, .mouseout 0, .mouseover 1, .tap 0]).hoveredNode =
      some ⟨.str "b", .str "B", .str "Product"⟩ :=
  (focus_is_last_enter (fun _ _ _ => (0, 0))
    (buildElements (.object
      ⟨some [⟨.str "a", .str "A", .str "Company"⟩, ⟨.str "b", .str "B", .str "Product"⟩],
       none⟩)) true
    [.mouseover 0, .mouseout 0, .mouseover 1, .tap 0] (by decide)).1

/-! ## Clicks -/

theorem renderNodes_buildElements (g : GraphData) :
    renderNodes (buildElements (.object g)) =
      (g.nodes.getD []).map (fun n =>
        ({ id := n.id.or n.name, name := n.name, label := n.label } : NodeData)) := by
  have h1 : List.filterMap Element.nodeData? ((g.edges.getD []).mapIdx edgeRecord) = [] := by
    rw [List.filterMap_eq_nil_iff]
    intro a ha
    rw [List.mapIdx_eq_enum_map] at ha
    obtain ⟨x, -, rfl⟩ := List.mem_map.1 ha
    rfl
  have h2 : Element.nodeData? ∘ nodeRecord =
      some ∘ (fun n : RawNode =>
        ({ id := n.id.or n.name, name := n.name, label := n.label } : NodeData)) := by
    funext n
    rfl
  rw [renderNodes, buildElements_object, List.filterMap_append, h1, List.append_nil,
    List.filterMap_map, h2, List.filterMap_eq_map]

theorem iterate_tap_selections (i : Nat) (node : CyNode) (n : Nat) (v : View)
    (hn : v.cy.nodes[i]? = some node) (hcb : v.hasOnNodeClick = true) :
    (Nat.iterate (fun v => step v (.tap i)) n v).selections =
      v.selections ++ List.replicate n node.data ∧
    (Nat.iterate (fun v => step v (.tap i)) n v).hoveredNode = v.hoveredNode := by
  induction n generalizing v with
  | zero => exact ⟨by simp, rfl⟩
  | succ n ih =>
    have hcy : (tap v i).cy = v.cy := tap_cy v i
    have hsel : (tap v i).selections = v.selections ++ [node.data] := by
      simp [tap, hn, hcb]
    have hcb' : (tap v i).hasOnNodeClick = true := by
      simp [tap, hn, hcb]
    obtain ⟨h1, h2⟩ := ih (tap v i) (by rw [hcy]; exact hn) hcb'
    refine ⟨?_, ?_⟩
    · show (Nat.iterate (fun v => step v (.tap i)) n (tap v i)).selections = _
      rw [h1, hsel, List.append_assoc]
      rfl
    · show (Nat.iterate (fun v => step v (.tap i)) n (tap v i)).hoveredNode = _
      rw [h2, tap_hoveredNode]

/-- On the mounted component, a click on a node calls the host callback once for every run of
`handleCyReady` so far, each time with the data of the node, and causes no render. -/
theorem mounted_tap_selections (layout : LayoutOptions → Cy → Nat → ℚ × ℚ) (m : Mounted)
    (i : Nat) (node : CyNode) (hn : m.view.cy.nodes[i]? = some node)
    (hcb : m.view.hasOnNodeClick = true) :
    (Mounted.dispatch layout m (.tap i)).view.selections =
      m.view.selections ++ List.replicate m.setups node.data ∧
    (Mounted.dispatch layout m (.tap i)).setups = m.setups := by
  obtain ⟨h1, h2⟩ := iterate_tap_selections i node m.setups m.view hn hcb
  unfold Mounted.dispatch
  simp only [h2, if_true]
  exact ⟨h1, trivial⟩

/-- C13 on the code. With the component mounted on the node `{ id: "a", name: "A",
label: "Company" }` and a host callback: a click on the node right after the mount calls the
callback once, with the render data of the node; a click after one pointer-enter calls it twice,
and a click after pointer-enter and pointer-leave three times, because each change of
`hoveredNode` renders the component again and `handleCyReady` registers the tap handler once
more, on top of the handlers that are there. -/
theorem tap_after_hover_calls_twice :
    (Mounted.run (fun _ _ _ => (0, 0)) (Mounted.mount (fun _ _ _ => (0, 0))
        (.object ⟨some [⟨.str "a", .str "A", .str "Company"⟩], none⟩) true)
      [.tap 0]).view.selections = [⟨.str "a", .str "A", .str "Company"⟩] ∧
    (Mounted.run (fun _ _ _ => (0, 0)) (Mounted.mount (fun _ _ _ => (0, 0))
        (.object ⟨some [⟨.str "a", .str "A", .str "Company"⟩], none⟩) true)
      [.mouseover 0, .tap 0]).view.selections =
      [⟨.str "a", .str "A", .str "Company"⟩, ⟨.str "a", .str "A", .str "Company"⟩] ∧
    (Mounted.run (fun _ _ _ => (0, 0)) (Mounted.mount (fun _ _ _ => (0, 0))
        (.object ⟨some [⟨.str "a", .str "A", .str "Company"⟩], none⟩) true)
      [.mouseover 0, .mouseout 0, .tap 0]).view.selections =
      [⟨.str "a", .str "A", .str "Company"⟩, ⟨.str "a", .str "A", .str "Company"⟩,
       ⟨.str "a", .str "A", .str "Company"⟩] :=
  ⟨rfl, rfl, rfl⟩

/-! ## Entering a node while another one is focused -/

/-- C11, as stated, fails. With the nodes a, b, c and the one edge from a to c, and a focused:
pointer-enter on b gives the same focus as pointer-leave on a followed by pointer-enter on b, but
not the same style: after the direct pointer-enter the node a still has the emphasis width 60 and
its edge the emphasis colour, after the detour a is back at 45 and the edge at its table
colour. -/
theorem enter_other_keeps_emphasis :
    (mouseover (View.initial (buildElements (.object
        ⟨some [⟨.str "a", .str "A", .str "Company"⟩, ⟨.str "b", .str "B", .str "Product"⟩,
               ⟨.str "c", .str "C", .str "Partner"⟩],
         some [⟨.str "a", .str "c", .str "USES"⟩]⟩)) true) 0).hoveredNode =
      some ⟨.str "a", .str "A", .str "Company"⟩ ∧
    (mouseover (mouseover (View.initial (buildElements (.object
        ⟨some [⟨.str "a", .str "A", .str "Company"⟩, ⟨.str "b", .str "B", .str "Product"⟩,
               ⟨.str "c", .str "C", .str "Partner"⟩],
         some [⟨.str "a", .str "c", .str "USES"⟩]⟩)) true) 0) 1).cy.nodes.map
        (fun n => n.style ⟨false, false⟩ "width") =
      [some (.num 60), some (.num 60), some (.num 45)] ∧
    (mouseover (mouseout (mouseover (View.initial (buildElements (.object
        ⟨some [⟨.str "a", .str "A", .str "Company"⟩, ⟨.str "b", .str "B", .str "Product"⟩,
               ⟨.str "c", .str "C", .str "Partner"⟩],
         some [⟨.str "a", .str "c", .str "USES"⟩]⟩)) true) 0) 0) 1).cy.nodes.map
        (fun n => n.style ⟨false, false⟩ "width") =
      [some (.num 45), some (.num 60), some (.num 45)] ∧
    (mouseover (mouseover (View.initial (buildElements (.object
        ⟨some [⟨.str "a", .str "A", .str "Company"⟩, ⟨.str "b", .str "B", .str "Product"⟩,
               ⟨.str "c", .str "C", .str "Partner"⟩],
         some [⟨.str "a", .str "c", .str "USES"⟩]⟩)) true) 0) 1).cy.edges.map
        (fun e => e.style ⟨false, false⟩ "line-color") =
      [some (.color (.hex "#a855f7"))] ∧
    (mouseover (mouseout (mouseover (View.initial (buildElements (.object
        ⟨some [⟨.str "a", .str "A", .str "Company"⟩, ⟨.str "b", .str "B", .str "Product"⟩,
               ⟨.str "c", .str "C", .str "Partner"⟩],
         some [⟨.str "a", .str "c", .str "USES"⟩]⟩)) true) 0) 0) 1).cy.edges.map
        (fun e => e.style ⟨false, false⟩ "line-color") =
      [some (.color (.hex "#3b82f6"))] := by
  decide

theorem connects_of_data (n n' : CyNode) (e e' : CyEdge) (hn : n'.data = n.data)
    (he : e'.data = e.data) : n'.connects e' = n.connects e := by
  simp [CyNode.connects, hn, he]

theorem lookup_mouseoutEdgeStyle_none (d : EdgeData) (prop : String)
    (h : List.lookup prop mouseoverEdgeStyle = none) :
    List.lookup prop (mouseoutEdgeStyle d) = none := by
  have h' := List.lookup_eq_none_iff.1 h
  simp only [mouseoverEdgeStyle, List.mem_cons, List.mem_singleton, List.not_mem_nil, or_false,
    forall_eq_or_imp, forall_eq, bne_iff_ne, ne_eq] at h'
  obtain ⟨h1, h2, h3⟩ := h'
  exact lookup_three _ _ _ _ _ _ prop h1 h2 h3

/-- C11, amended. For every view and two different nodes `node` and `otherNode` of the
surface, pointer-enter on `otherNode` gives the same focus (the data of `otherNode`) as
pointer-leave on `node` followed by pointer-enter on `otherNode`, the same state for every node
other than `node`, and the same style for every edge that touches `otherNode` or does not touch
`node`. The direct pointer-enter leaves `node` itself, and every edge that does not touch
`otherNode`, exactly as they were: it does not undo the emphasis of `node`. -/
theorem enter_other_vs_leave_enter (v : View) (n m : Nat) (node otherNode : CyNode)
    (hn : v.cy.nodes[n]? = some node) (hm : v.cy.nodes[m]? = some otherNode) (hnm : n ≠ m) :
    ((mouseover v m).hoveredNode = some otherNode.data ∧
      (mouseover (mouseout v n) m).hoveredNode = some otherNode.data) ∧
    (∀ k : Nat, k ≠ n →
      (mouseover v m).cy.nodes[k]? = (mouseover (mouseout v n) m).cy.nodes[k]?) ∧
    (∀ (j : Nat) (e : CyEdge), v.cy.edges[j]? = some e →
      (otherNode.connects e = true ∨ node.connects e = false) →
      ∀ (ps : Pseudo) (prop : String),
        ((mouseover v m).cy.edges[j]?).map (fun x => x.style ps prop) =
          ((mouseover (mouseout v n) m).cy.edges[j]?).map (fun x => x.style ps prop)) ∧
    ((mouseover v m).cy.nodes[n]? = some node ∧
      ∀ (j : Nat) (e : CyEdge), v.cy.edges[j]? = some e → otherNode.connects e = false →
        (mouseover v m).cy.edges[j]? = some e) := by
  have hm' : (mouseout v n).cy.nodes[m]? = some otherNode := by
    rw [mouseout_nodes v n node hn, hm]
    simp [hnm]
  refine ⟨⟨mouseover_hoveredNode v m otherNode hm,
    mouseover_hoveredNode _ m otherNode hm'⟩, ?_, ?_, ?_, ?_⟩
  · intro k hk
    have hnk : ¬ n = k := fun h' => hk h'.symm
    rw [mouseover_nodes v m otherNode hm, mouseover_nodes _ m otherNode hm',
      mouseout_nodes v n node hn]
    cases hv : v.cy.nodes[k]? <;> simp [hnk]
  · intro j e he hcase ps prop
    rw [mouseover_edges v m otherNode hm, mouseover_edges _ m otherNode hm',
      mouseout_edges v n node hn, he]
    by_cases hcn : node.connects e = true
    · have hcm : otherNode.connects e = true := by
        rcases hcase with h1 | h1
        · exact h1
        · rw [h1] at hcn
          cases hcn
      have hcm' : otherNode.connects
          ⟨e.data, Style.write (mouseoutEdgeStyle e.data) e.bypass⟩ = true := hcm
      simp only [Option.map_some', hcn, hcm, hcm', if_true, CyEdge.style, styleOf,
        lookup_write]
      cases hl : List.lookup prop mouseoverEdgeStyle with
      | some x => rfl
      | none => simp [lookup_mouseoutEdgeStyle_none e.data prop hl]
    · simp only [Bool.not_eq_true] at hcn
      simp [hcn]
  · rw [mouseover_nodes v m otherNode hm, hn]
    have hmn : ¬ m = n := fun h' => hnm h'.symm
    simp [hmn]
  · intro j e he hc
    rw [mouseover_edges v m otherNode hm, he]
    simp [hc]

theorem enter_other_vs_leave_enter_witness :
    (mouseover (View.initial (buildElements (.object
        ⟨some [⟨.str "a", .str "A", .str "Company"⟩, ⟨.str "b", .str "B", .str "Product"⟩],
         none⟩)) true) 1).hoveredNode = some ⟨.str "b", .str "B", .str "Product"⟩ :=
  (enter_other_vs_leave_enter
    (View.initial (buildElements (.object
      ⟨some [⟨.str "a", .str "A", .str "Company"⟩, ⟨.str "b", .str "B", .str "Product"⟩],
       none⟩)) true)
    0 1 ⟨⟨.str "a", .str "A", .str "Company"⟩, [], (0, 0), true⟩
    ⟨⟨.str "b", .str "B", .str "Product"⟩, [], (0, 0), true⟩ rfl rfl (by decide)).1.1

/-! ## The emphasis of pointer-enter -/

/-- C17 on the code. For every node of the initial view, pointer-enter gives the node the width
and height 60, the border width 3 and the border colour `#c084fc`, and gives every edge touching
it the width 3, up from 1.5, and the colour `#a855f7` for line and arrowhead. For a node that is
not the anchor this enlarges it, from 45 to 60; for the anchor node it does not: the anchor is
65 wide and high before the event and 60 after it. -/
theorem mouseover_emphasis (elements : List Element) (cb : Bool) (i : Nat) (n : CyNode)
    (ps : Pseudo) (h : (View.initial elements cb).cy.nodes[i]? = some n) :
    (∃ n' : CyNode, (mouseover (View.initial elements cb) i).cy.nodes[i]? = some n' ∧
      n'.data = n.data ∧
      n'.style ps "width" = some (.num 60) ∧ n'.style ps "height" = some (.num 60) ∧
      n'.style ps "border-width" = some (.num 3) ∧
      n'.style ps "border-color" = some (.color (.hex "#c084fc"))) ∧
    (n.data.name ≠ .str "Infosys" →
      n.style ps "width" = some (.num 45) ∧ n.style ps "height" = some (.num 45) ∧
      (45 : ℚ) < 60) ∧
    (n.data.name = .str "Infosys" →
      n.style ps "width" = some (.num 65) ∧ n.style ps "height" = some (.num 65) ∧
      (60 : ℚ) < 65) ∧
    (∀ (j : Nat) (e : CyEdge), (View.initial elements cb).cy.edges[j]? = some e →
      n.connects e = true →
      ∃ e' : CyEdge, (mouseover (View.initial elements cb) i).cy.edges[j]? = some e' ∧
        e'.data = e.data ∧
        e.style ps "width" = some (.num 1.5) ∧ e'.style ps "width" = some (.num 3) ∧
        (1.5 : ℚ) < 3 ∧
        e'.style ps "line-color" = some (.color (.hex "#a855f7")) ∧
        e'.style ps "target-arrow-color" = some (.color (.hex "#a855f7"))) := by
  have hb := initial_node_bypass elements cb i n h
  refine ⟨⟨⟨n.data, Style.write mouseoverNodeStyle n.bypass, n.position, n.grabbable⟩,
    ?_, rfl, ?_, ?_, ?_, ?_⟩, ?_, ?_, ?_⟩
  · rw [mouseover_nodes _ i n h, h]
    simp
  · simp [CyNode.style, styleOf, lookup_write, mouseoverNodeStyle, List.lookup]
  · simp [CyNode.style, styleOf, lookup_write, mouseoverNodeStyle, List.lookup]
  · simp [CyNode.style, styleOf, lookup_write, mouseoverNodeStyle, List.lookup]
  · simp [CyNode.style, styleOf, lookup_write, mouseoverNodeStyle, List.lookup]
  · intro hname
    obtain ⟨hw, hh, -⟩ := sheetValue_plain_size n.data ps hname
    refine ⟨?_, ?_, by norm_num⟩
    · simp [CyNode.style, styleOf, hb, hw]
    · simp [CyNode.style, styleOf, hb, hh]
  · intro hname
    obtain ⟨-, -, hw, hh, -⟩ := sheetValue_anchor n.data ps hname
    refine ⟨?_, ?_, by norm_num⟩
    · simp [CyNode.style, styleOf, hb, hw]
    · simp [CyNode.style, styleOf, hb, hh]
  · intro j e he hc
    have hbe := initial_edge_bypass elements cb j e he
    obtain ⟨hw, -, -⟩ := sheetValue_edge e.data ps
    refine ⟨⟨e.data, Style.write mouseoverEdgeStyle e.bypass⟩, ?_, rfl, ?_, ?_, by norm_num,
      ?_, ?_⟩
    · rw [mouseover_edges _ i n h, he]
      simp [hc]
    · cases hcol : edgeColorsAt e.data.relationship with
      | none =>
        rw [hcol] at hbe
        simp [CyEdge.style, styleOf, hbe, hw]
      | some c =>
        rw [hcol] at hbe
        simp [CyEdge.style, styleOf, hbe, hw, lookup_write, List.lookup]
    · simp [CyEdge.style, styleOf, lookup_write, mouseoverEdgeStyle, List.lookup]
    · simp [CyEdge.style, styleOf, lookup_write, mouseoverEdgeStyle, List.lookup]
    · simp [CyEdge.style, styleOf, lookup_write, mouseoverEdgeStyle, List.lookup]

theorem mouseover_emphasis_witness :
    (⟨⟨.str "n0", .str "Infosys", .str "Company"⟩, [], (0, 0), true⟩ : CyNode).style
        ⟨false, false⟩ "width" = some (.num 65) ∧
    ∃ n' : CyNode,
      (mouseover (View.initial
        (buildElements (.object ⟨some [⟨.str "n0", .str "Infosys", .str "Company"⟩], none⟩))
        true) 0).cy.nodes[0]? = some n' ∧
      n'.style ⟨false, false⟩ "width" = some (.num 60) := by
  have h := mouseover_emphasis
    (buildElements (.object ⟨some [⟨.str "n0", .str "Infosys", .str "Company"⟩], none⟩))
    true 0 ⟨⟨.str "n0", .str "Infosys", .str "Company"⟩, [], (0, 0), true⟩ ⟨false, false⟩ rfl
  obtain ⟨⟨n', hn', -, hw, -⟩, -, hanchor, -⟩ := h
  exact ⟨(hanchor rfl).1, n', hn', hw⟩

/-! ## The component: a new payload, and the tooltip -/

/-- C15, as stated, fails. A view is mounted with the node a and the pointer enters a; when the
host then supplies a new payload, with the one node z, the render of the mounted component hands
the new records to the surface and keeps the focus on a: `hoveredNode` is not reset, and the
tooltip still shows a. -/
theorem focus_survives_new_payload :
    (mouseover (View.ready (fun _ _ _ => (0, 0))
        (mount (.object ⟨some [⟨.str "a", .str "A", .str "Company"⟩], none⟩)).1.elements
        true) 0).hoveredNode = some ⟨.str "a", .str "A", .str "Company"⟩ ∧
    (render (.object ⟨some [⟨.str "z", .str "Z", .str "Region"⟩], none⟩)
        (mouseover (View.ready (fun _ _ _ => (0, 0))
          (mount (.object ⟨some [⟨.str "a", .str "A", .str "Company"⟩], none⟩)).1.elements
          true) 0).hoveredNode).2 = some ⟨.str "a", .str "A", .str "Company"⟩ ∧
    (render (.object ⟨some [⟨.str "z", .str "Z", .str "Region"⟩], none⟩)
        (mouseover (View.ready (fun _ _ _ => (0, 0))
          (mount (.object ⟨some [⟨.str "a", .str "A", .str "Company"⟩], none⟩)).1.elements
          true) 0).hoveredNode).2 ≠ none ∧
    (render (.object ⟨some [⟨.str "z", .str "Z", .str "Region"⟩], none⟩)
        (mouseover (View.ready (fun _ _ _ => (0, 0))
          (mount (.object ⟨some [⟨.str "a", .str "A", .str "Company"⟩], none⟩)).1.elements
          true) 0).hoveredNode).1 =
      { elements := [.node ⟨.str "z", .str "Z", .str "Region"⟩]
        legend := [("Company", .hex "#3b82f6"), ("Product", .hex "#a855f7"),
          ("Partner", .hex "#10b981"), ("Region", .hex "#f59e0b"),
          ("Investment", .hex "#ef4444")]
        tooltip := some ⟨.hex "#3b82f6", .str "A", .str "Company"⟩ } := by
  decide

/-- C15, amended. For every interaction state, supplying a new graph payload to the mounted view
renders the records of the new payload and leaves the focus as it was, with the tooltip of the
focused node still shown; the focus is none in a view that is mounted afresh. -/
theorem new_payload_keeps_focus (graphData : Payload) (hoveredNode : Option NodeData) :
    (render graphData hoveredNode).2 = hoveredNode ∧
    (render graphData hoveredNode).1.elements = buildElements graphData ∧
    (render graphData hoveredNode).1.tooltip = tooltipOf hoveredNode ∧
    (mount graphData).2 = none ∧ (mount graphData).1.tooltip = none :=
  ⟨rfl, rfl, rfl, rfl, rfl⟩

/-- C16, as stated, fails. The pointer enters the node a and leaves it: the focus is none again
and the render has no tooltip, but the tooltip of a is still in the document, on its way to the
`exit` values, so a tooltip is shown while the state is Idle. -/
theorem tooltip_lingers_after_leave :
    (mouseout (mouseover (View.ready (fun _ _ _ => (0, 0))
        (buildElements (.object ⟨some [⟨.str "a", .str "A", .str "Company"⟩], none⟩))
        true) 0) 0).hoveredNode = none ∧
    Presence.commit
        (Presence.commit .absent
          (render (.object ⟨some [⟨.str "a", .str "A", .str "Company"⟩], none⟩)
            (mouseover (View.ready (fun _ _ _ => (0, 0))
              (buildElements (.object ⟨some [⟨.str "a", .str "A", .str "Company"⟩], none⟩))
              true) 0).hoveredNode).1.tooltip)
        (render (.object ⟨some [⟨.str "a", .str "A", .str "Company"⟩], none⟩)
          (mouseout (mouseover (View.ready (fun _ _ _ => (0, 0))
            (buildElements (.object ⟨some [⟨.str "a", .str "A", .str "Company"⟩], none⟩))
            true) 0) 0).hoveredNode).1.tooltip =
      .exiting ⟨.hex "#3b82f6", .str "A", .str "Company"⟩ tooltipExit ∧
    (Presence.exiting ⟨.hex "#3b82f6", .str "A", .str "Company"⟩ tooltipExit).shown ≠ none :=
  ⟨rfl, rfl, by decide⟩

/-- C16, amended. What a render returns has the tooltip if and only if a node is focused, and
the tooltip then shows the name of the focused node and its label as the type, and is in the
document after the commit. After a pointer-leave on a node of the surface the focus is none and
the render has no tooltip; a tooltip that was in the document is then still there, with its
content, while it is animated to the `exit` values (opacity 0, offset 10), and it is gone when
that animation has ended. -/
theorem tooltip_rendered_iff_focused (graphData : Payload) (hoveredNode : Option NodeData) :
    ((render graphData hoveredNode).1.tooltip ≠ none ↔ hoveredNode ≠ none) ∧
    (∀ d : NodeData, hoveredNode = some d →
      ∃ t : Tooltip, (render graphData hoveredNode).1.tooltip = some t ∧
        t.name = d.name ∧ t.type = d.label ∧
        ∀ before : Presence,
          (before.commit (render graphData hoveredNode).1.tooltip).shown = some t) ∧
    (∀ (v : View) (i : Nat) (n : CyNode) (t : Tooltip), v.cy.nodes[i]? = some n →
      (mouseout v i).hoveredNode = none ∧
      (render graphData (mouseout v i).hoveredNode).1.tooltip = none ∧
      (Presence.present t).commit (render graphData (mouseout v i).hoveredNode).1.tooltip =
        .exiting t tooltipExit ∧
      (Presence.exiting t tooltipExit).shown = some t ∧
      tooltipExit = { opacity := 0, y := 10 } ∧
      (Presence.exiting t tooltipExit).exitComplete.shown = none) := by
  refine ⟨?_, ?_, ?_⟩
  · cases hoveredNode <;> simp [render, tooltipOf]
  · intro d hd
    subst hd
    refine ⟨_, rfl, rfl, rfl, ?_⟩
    intro before
    cases before <;> rfl
  · intro v i n t hn
    have h := mouseout_hoveredNode v i n hn
    refine ⟨h, ?_, ?_, rfl, rfl, rfl⟩
    · rw [h]
      rfl
    · rw [h]
      rfl

/-! ## Leaving a node that is not the focused one -/

/-- C21. For every view and every node `m` of the surface, pointer-leave on `m` sets the focus to
none, whatever the focus was. In particular, after pointer-enter on a node `n` the focus is the
data of `n` and the tooltip is rendered, and pointer-leave on `m`, the same node or another one,
then gives the focus none and a render without tooltip. -/
theorem leave_any_node_clears_focus (v : View) (n m : Nat) (node other : CyNode)
    (graphData : Payload) (hn : v.cy.nodes[n]? = some node)
    (hm : v.cy.nodes[m]? = some other) :
    (mouseout v m).hoveredNode = none ∧
    ((mouseover v n).hoveredNode = some node.data ∧
      (render graphData (mouseover v n).hoveredNode).1.tooltip ≠ none) ∧
    ((mouseout (mouseover v n) m).hoveredNode = none ∧
      (render graphData (mouseout (mouseover v n) m).hoveredNode).1.tooltip = none) := by
  have h1 := mouseover_hoveredNode v n node hn
  have hm' : ∃ x : CyNode, (mouseover v n).cy.nodes[m]? = some x := by
    rw [mouseover_nodes v n node hn, hm]
    exact ⟨_, rfl⟩
  obtain ⟨x, hx⟩ := hm'
  have h2 := mouseout_hoveredNode (mouseover v n) m x hx
  refine ⟨mouseout_hoveredNode v m other hm, ⟨h1, ?_⟩, ⟨h2, ?_⟩⟩
  · rw [h1]
    simp [render, tooltipOf]
  · rw [h2]
    rfl

theorem leave_any_node_clears_focus_witness :
    (mouseover (View.initial (buildElements (.object
        ⟨some [⟨.str "a", .str "A", .str "Company"⟩, ⟨.str "b", .str "B", .str "Product"⟩],
         none⟩)) true) 0).hoveredNode = some ⟨.str "a", .str "A", .str "Company"⟩ ∧
    (mouseout (mouseover (View.initial (buildElements (.object
        ⟨some [⟨.str "a", .str "A", .str "Company"⟩, ⟨.str "b", .str "B", .str "Product"⟩],
         none⟩)) true) 0) 1).hoveredNode = none :=
  ⟨(leave_any_node_clears_focus
      (View.initial (buildElements (.object
        ⟨some [⟨.str "a", .str "A", .str "Company"⟩, ⟨.str "b", .str "B", .str "Product"⟩],
         none⟩)) true)
      0 1 ⟨⟨.str "a", .str "A", .str "Company"⟩, [], (0, 0), true⟩
      ⟨⟨.str "b", .str "B", .str "Product"⟩, [], (0, 0), true⟩ .undefined rfl rfl).2.1.1,
   (leave_any_node_clears_focus
      (View.initial (buildElements (.object
        ⟨some [⟨.str "a", .str "A", .str "Company"⟩, ⟨.str "b", .str "B", .str "Product"⟩],
         none⟩)) true)
      0 1 ⟨⟨.str "a", .str "A", .str "Company"⟩, [], (0, 0), true⟩
      ⟨⟨.str "b", .str "B", .str "Product"⟩, [], (0, 0), true⟩ .undefined rfl rfl).2.2.1⟩

end GraphView


namespace ComparisonTable

open GraphView

theorem arraySort_perm {α : Type} (compare : α → α → Int) (xs : List α) :
    (arraySort compare xs).Perm xs :=
  List.perm_insertionSort _ xs

theorem arraySort_of_all_zero {α : Type} (compare : α → α → Int)
    (h : ∀ a b, compare a b = 0) (xs : List α) : arraySort compare xs = xs := by
  unfold arraySort
  induction xs with
  | nil => rfl
  | cons a xs ih =>
    rw [List.insertionSort_cons _ (fun b _ => by simp [h a b]), ih]

theorem compareRows_no_key (localeCompare : String → String → Int) (st : SortState)
    (h : st.sortKey.truthy = false) (a b : Row) : compareRows localeCompare st a b = 0 := by
  simp [compareRows, h]

/-- C22. For every non-empty list of rows and every sort state, the table is rendered, the rows
displayed are a permutation of the input rows (every row as often as in the input, and as many
rows), the input array is left as it was, and when no sort key is selected (`sortKey` is `null`)
the rows are displayed in their original order. -/
theorem displayed_rows_perm (localeCompare : String → String → Int) (rows : List Row)
    (st : SortState) (h : rows ≠ []) :
    ∃ r : TableRender, tableRender localeCompare (some rows) st = some r ∧
      r.sorted.Perm rows ∧
      (∀ row : Row, r.sorted.countP (fun x => decide (x = row)) =
        rows.countP (fun x => decide (x = row))) ∧
      r.sorted.length = rows.length ∧
      r.data = rows ∧
      (st.sortKey = .null → r.sorted = rows) := by
  have hlen : ¬ rows.length = 0 := fun h0 => h (List.length_eq_zero.1 h0)
  have hperm := arraySort_perm (compareRows localeCompare st) rows
  refine ⟨⟨rows, arraySort (compareRows localeCompare st) rows⟩, ?_, hperm,
    fun row => hperm.countP_eq _, hperm.length_eq, rfl, ?_⟩
  · simp [tableRender, hlen]
  · intro hkey
    exact arraySort_of_all_zero _
      (compareRows_no_key localeCompare st (by rw [hkey]; rfl)) rows

theorem displayed_rows_perm_witness :
    ∃ r : TableRender,
      tableRender (fun _ _ => 0)
        (some [[("category", .str "Cloud"), ("Infosys", .str "Cobalt")],
               [("category", .str "AI"), ("Infosys", .str "Topaz")]])
        SortState.initial = some r ∧
      r.sorted = [[("category", .str "Cloud"), ("Infosys", .str "Cobalt")],
                  [("category", .str "AI"), ("Infosys", .str "Topaz")]] := by
  obtain ⟨r, hr, -, -, -, -, hsame⟩ :=
    displayed_rows_perm (fun _ _ => 0)
      [[("category", .str "Cloud"), ("Infosys", .str "Cobalt")],
       [("category", .str "AI"), ("Infosys", .str "Topaz")]]
      SortState.initial (by decide)
  exact ⟨r, hr, hsame rfl⟩

end ComparisonTable
